import Mathlib

/-!
# Verification of the portfolio filter-and-aggregation engine

Shallow embedding of the filter predicate, the materialized-collection
filter, the declarative map-filter expression builder, and the stats-panel
aggregation of the portfolio dashboard (src/js/stats.js and src/js/main.js),
together with proofs settling the frozen specification claims.

JavaScript values relevant to the engine are modelled by `JSVal`
(strings, numbers with NaN and the infinities, booleans, null); an absent
object attribute is `Option.none`.  JS numbers are modelled as exact
rationals: the engine only adds, maximizes and divides values it has
already checked with `typeof v === "number" && isFinite(v)`, so no
floating-point rounding is relevant to the claims.
-/

/-- A JavaScript number: a finite value (modelled exactly as a rational),
NaN, or one of the two infinities. -/
inductive JSNum where
  | fin (q : ℚ)
  | nan
  | posInf
  | negInf
deriving DecidableEq, Repr

/-- A JavaScript value as it appears in a GeoJSON property bag. -/
inductive JSVal where
  | str (s : String)
  | num (n : JSNum)
  | bool (b : Bool)
  | null
deriving DecidableEq, Repr

/-- JS truthiness: `""`, `0`, `NaN`, `false` and `null` are falsy. -/
def truthy : JSVal → Bool
  | .str s => s ≠ ""
  | .num (.fin q) => q ≠ 0
  | .num .nan => false
  | .num _ => true
  | .bool b => b
  | .null => false

/-- Truthiness of a possibly-absent attribute (`undefined` is falsy). -/
def truthyO : Option JSVal → Bool
  | none => false
  | some v => truthy v

/-- The JS `a || d` idiom on a possibly-absent value: the value when
truthy, the default otherwise. -/
def jsOr (v : Option JSVal) (d : JSVal) : JSVal :=
  match v with
  | some x => if truthy x then x else d
  | none => d

/-- JS strict equality `===` on values; `NaN === NaN` is false. -/
def jsStrictEq : JSVal → JSVal → Bool
  | .str s, .str t => s == t
  | .num (.fin q), .num (.fin r) => q == r
  | .num .posInf, .num .posInf => true
  | .num .negInf, .num .negInf => true
  | .bool a, .bool b => a == b
  | .null, .null => true
  | _, _ => false

/-- JS strict equality between a possibly-absent attribute and a value
(`undefined === v` is false for every value `v` of `JSVal`). -/
def jsStrictEqO (v : Option JSVal) (w : JSVal) : Bool :=
  match v with
  | some x => jsStrictEq x w
  | none => false

/-- Rendering of a finite rational, used by the model of JS
number-to-string coercion.  The exact digits never matter to the engine:
no rendered number equals one of the category strings or starts with
"Medical Office". -/
def ratToString (q : ℚ) : String :=
  if q.den = 1 then toString q.num else toString q.num ++ "/" ++ toString q.den

/-- Model of the JS `String(v)` coercion. -/
def jsToString : JSVal → String
  | .str s => s
  | .num (.fin q) => ratToString q
  | .num .nan => "NaN"
  | .num .posInf => "Infinity"
  | .num .negInf => "-Infinity"
  | .bool true => "true"
  | .bool false => "false"
  | .null => "null"

/-- Kernel-friendly model of `String.startsWith` via the character list. -/
def jsStartsWith (s pre : String) : Bool :=
  List.isPrefixOf pre.data s.data

/-- Kernel-friendly model of `s.slice(0, n)` on a JS string. -/
def strTake (s : String) (n : Nat) : String :=
  String.mk (s.data.take n)

/-- `Array.prototype.includes` of a JS value in an array of strings
(SameValueZero on strings coincides with string equality). -/
def jsIncludesStr (arr : List String) (v : JSVal) : Bool :=
  match v with
  | .str s => arr.contains s
  | _ => false

/-- `includes` applied to a possibly-absent needle (`undefined` is never
a member of an array of strings). -/
def jsIncludesStrO (arr : List String) (v : Option JSVal) : Bool :=
  match v with
  | some x => jsIncludesStr arr x
  | none => false

/-- `typeof v === "number" && isFinite(v)`. -/
def isFiniteNum : JSVal → Bool
  | .num (.fin _) => true
  | _ => false

/-- The rational carried by a finite JS number (0 otherwise; only ever
read behind an `isFiniteNum` guard). -/
def finVal : JSVal → ℚ
  | .num (.fin q) => q
  | _ => 0

/-- The property bag of a portfolio feature.  Each attribute read by the
engine is a possibly-absent JS value. -/
structure Properties where
  ownership_type : Option JSVal := none
  building_type : Option JSVal := none
  service_area : Option JSVal := none
  label : Option JSVal := none
  longstreet : Option JSVal := none
  square_footage : Option JSVal := none
  land_size : Option JSVal := none
  grouping : Option JSVal := none
deriving DecidableEq, Repr

/-- A feature of the portfolio collection.  `none` models a feature that
is null or lacks a `properties` object (the source always collapses the
two with `feature && feature.properties`). -/
abbrev Feature := Option Properties

/-- The empty property bag `{}`. -/
def emptyProps : Properties := {}

/-- `feature && feature.properties ? feature.properties : {}`. -/
def propsOf (f : Feature) : Properties := f.getD emptyProps

/-- The fixed service-area enumeration (`ALL_SERVICE_AREAS` in main.js). -/
def ALL_SERVICE_AREAS : List String :=
  ["Habersham", "Lumpkin", "Gainesville", "Braselton", "Barrow"]

/-- The explicit property-type categories excluded by the "Other"
selection. -/
def explicitCategories : List String :=
  ["Hospital", "Land", "Office", "Vacant Building"]

/-- stats.js `getServiceArea`: the feature's `service_area`, falling back
to `label` when falsy, and to `""` when both are falsy or the property
bag is missing. -/
def getServiceArea (feature : Feature) : JSVal :=
  match feature with
  | some p => jsOr p.service_area (jsOr p.label (.str ""))
  | none => .str ""

/-- stats.js `filterFeature`: the stats-path predicate combining the
ownership, property-type, service-area and longstreet dimensions. -/
def filterFeature (feature : Feature) (selectedOwnership selectedPropertyType : String)
    (selectedServiceAreas : List String) (showLongstreet : Bool) : Bool :=
  match feature with
  | none => false
  | some p =>
    -- Ownership filter
    if (selectedOwnership != "" && selectedOwnership != "all") &&
        !(jsStrictEqO p.ownership_type (.str selectedOwnership)) then false
    -- Property type filter
    else if (selectedPropertyType != "" && selectedPropertyType != "All") &&
        (if selectedPropertyType == "Medical Office" then
          !(jsStartsWith (jsToString (jsOr p.building_type (.str ""))) "Medical Office")
        else if selectedPropertyType == "Other" then
          (explicitCategories.contains (jsToString (jsOr p.building_type (.str ""))) ||
           jsStartsWith (jsToString (jsOr p.building_type (.str ""))) "Medical Office")
        else !(jsStrictEqO p.building_type (.str selectedPropertyType))) then false
    -- Service area filter
    else if (!selectedServiceAreas.isEmpty) &&
        !(jsIncludesStr selectedServiceAreas (getServiceArea (some p))) then false
    -- Longstreet toggle filter
    else if (showLongstreet == false) && jsStrictEqO p.longstreet (.str "Yes") then false
    else true

/-- main.js `buildFilteredPortfolioCollection`, inner predicate: the
per-feature condition of the materialized-collection filter used to feed
the clustered source.  Note the source compares `slice(0, 13)` of the
building type against the 14-character literal "Medical Office". -/
def collectionPred (selectedOwnership selectedPropertyType : String)
    (selectedServiceAreas : List String) (showLongstreet : Bool) (feature : Feature) : Bool :=
  -- Ownership filter
  if (selectedOwnership != "" && selectedOwnership != "all") &&
      !(jsStrictEqO (propsOf feature).ownership_type (.str selectedOwnership)) then false
  -- Property type filter (the source binds bt = p.building_type || "")
  else if (selectedPropertyType != "" && selectedPropertyType != "All") &&
      (if selectedPropertyType == "Medical Office" then
         !(strTake (jsToString (jsOr (propsOf feature).building_type (.str ""))) 13 ==
           "Medical Office")
       else if selectedPropertyType == "Other" then
         jsIncludesStr explicitCategories (jsOr (propsOf feature).building_type (.str "")) ||
           (strTake (jsToString (jsOr (propsOf feature).building_type (.str ""))) 13 ==
            "Medical Office")
       else !(jsStrictEq (jsOr (propsOf feature).building_type (.str ""))
         (.str selectedPropertyType))) then false
  -- Service area filter (points); showAllServiceAreas compares lengths only
  else if (!(selectedServiceAreas.length == ALL_SERVICE_AREAS.length)) &&
      !(jsIncludesStrO selectedServiceAreas (propsOf feature).service_area) then false
  -- Longstreet toggle
  else if (showLongstreet == false) && jsStrictEqO (propsOf feature).longstreet (.str "Yes") then
    false
  else true

/-- main.js `buildFilteredPortfolioCollection`: the materialized filtered
copy of the portfolio collection. -/
def buildFilteredPortfolioCollection (portfolio : List Feature)
    (selectedOwnership selectedPropertyType : String)
    (selectedServiceAreas : List String) (showLongstreet : Bool) : List Feature :=
  portfolio.filter
    (collectionPred selectedOwnership selectedPropertyType selectedServiceAreas showLongstreet)

/-! ## The declarative map filter expression

`buildPortfolioFilterExpression` in main.js produces a Mapbox GL filter
expression tree.  `MapExpr` is the fragment of the expression language the
builder uses, and `evalExpr` its runtime semantics: `none` models a
runtime evaluation error, which a GL filter coerces to "feature hidden".
-/

/-- The fragment of the Mapbox GL expression language used by the
portfolio filter builder. -/
inductive MapExpr where
  | get (prop : String)
  | lit (v : JSVal)
  | litList (vs : List String)
  | eqE (a b : MapExpr)
  | neE (a b : MapExpr)
  | sliceE (e : MapExpr) (lo hi : Nat)
  | matchE (input : MapExpr) (labels : List String) (ifTrue ifFalse : MapExpr)
  | inE (needle haystack : MapExpr)
  | notE (e : MapExpr)
  | allE (es : List MapExpr)
deriving Repr

/-- A runtime value of the GL expression evaluator: an ordinary JS value
or a literal array of strings (the only arrays the builder emits). -/
inductive EVal where
  | v (x : JSVal)
  | strs (vs : List String)
deriving DecidableEq, Repr

/-- GL runtime `"=="`: mismatched runtime types compare unequal, equal
types compare by value; on our value domain this coincides with JS strict
equality. -/
def glEq : JSVal → JSVal → Bool := jsStrictEq

/-- `["get", prop]` on a feature: the attribute's value, or GL `null`
when the attribute is absent. -/
def pget (p : Properties) (prop : String) : JSVal :=
  if prop == "ownership_type" then p.ownership_type.getD .null
  else if prop == "building_type" then p.building_type.getD .null
  else if prop == "service_area" then p.service_area.getD .null
  else if prop == "longstreet" then p.longstreet.getD .null
  else .null

mutual

/-- Runtime semantics of the GL expression fragment over a feature's
property bag; `none` is a runtime evaluation error. -/
def evalExpr : MapExpr → Properties → Option EVal
  | .get prop, p => some (.v (pget p prop))
  | .lit x, _ => some (.v x)
  | .litList vs, _ => some (.strs vs)
  | .eqE a b, p =>
    match evalExpr a p, evalExpr b p with
    | some (.v x), some (.v y) => some (.v (.bool (glEq x y)))
    | _, _ => none
  | .neE a b, p =>
    match evalExpr a p, evalExpr b p with
    | some (.v x), some (.v y) => some (.v (.bool (!(glEq x y))))
    | _, _ => none
  | .sliceE e lo hi, p =>
    match evalExpr e p with
    | some (.v (.str s)) => some (.v (.str (String.mk ((s.data.drop lo).take (hi - lo)))))
    | _ => none
  | .matchE input labels ifTrue ifFalse, p =>
    match evalExpr input p with
    | some (.v (.str s)) => if labels.contains s then evalExpr ifTrue p else evalExpr ifFalse p
    | some (.v (.num _)) => evalExpr ifFalse p
    | _ => none
  | .inE needle haystack, p =>
    match evalExpr needle p, evalExpr haystack p with
    | some (.v (.str s)), some (.strs vs) => some (.v (.bool (vs.contains s)))
    | some (.v (.num _)), some (.strs _) => some (.v (.bool false))
    | some (.v (.bool _)), some (.strs _) => some (.v (.bool false))
    | _, _ => none
  | .notE e, p =>
    match evalExpr e p with
    | some (.v (.bool b)) => some (.v (.bool (!b)))
    | _ => none
  | .allE es, p => evalAllList es p

/-- `["all", ...]`: conditions in order, short-circuiting on the first
false; a non-boolean or erroring condition is a runtime error. -/
def evalAllList : List MapExpr → Properties → Option EVal
  | [], _ => some (.v (.bool true))
  | e :: es, p =>
    match evalExpr e p with
    | some (.v (.bool true)) => evalAllList es p
    | some (.v (.bool false)) => some (.v (.bool false))
    | _ => none

end

/-- A GL filter applied to a feature: a null filter shows every feature;
otherwise the feature is shown exactly when the expression evaluates
without error to `true`. -/
def evalFilterExpr (e : Option MapExpr) (p : Properties) : Bool :=
  match e with
  | none => true
  | some ex =>
    match evalExpr ex p with
    | some (.v (.bool true)) => true
    | _ => false

/-- The `ownershipCondition` of `buildPortfolioFilterExpression`. -/
def ownershipCondition (selectedOwnership : String) : Option MapExpr :=
  if selectedOwnership != "" && selectedOwnership != "all" then
    some (.eqE (.get "ownership_type") (.lit (.str selectedOwnership)))
  else none

/-- The `propertyCondition` of `buildPortfolioFilterExpression`. -/
def propertyCondition (selectedPropertyType : String) : Option MapExpr :=
  if selectedPropertyType != "" && selectedPropertyType != "All" then
    if selectedPropertyType == "Medical Office" then
      -- Prefix match via slice(0, 13) against the 14-character literal
      some (.matchE (.sliceE (.get "building_type") 0 13) ["Medical Office"]
        (.lit (.bool true)) (.lit (.bool false)))
    else if selectedPropertyType == "Other" then
      some (.allE [.notE (.inE (.get "building_type") (.litList explicitCategories)),
        .neE (.sliceE (.get "building_type") 0 13) (.lit (.str "Medical Office"))])
    else some (.eqE (.get "building_type") (.lit (.str selectedPropertyType)))
  else none

/-- The `serviceAreaCondition` of `buildPortfolioFilterExpression`. -/
def serviceAreaCondition (selectedServiceAreas : List String) : Option MapExpr :=
  if selectedServiceAreas.length > 0 &&
      selectedServiceAreas.length < ALL_SERVICE_AREAS.length then
    some (.inE (.get "service_area") (.litList selectedServiceAreas))
  else none

/-- The `longstreetCondition` of `buildPortfolioFilterExpression`. -/
def longstreetCondition (showLongstreet : Bool) : Option MapExpr :=
  if showLongstreet == false then some (.neE (.get "longstreet") (.lit (.str "Yes")))
  else none

/-- main.js `buildPortfolioFilterExpression`: the combined declarative
filter for the portfolio layers (`null` when no dimension constrains). -/
def buildPortfolioFilterExpression (selectedOwnership selectedPropertyType : String)
    (selectedServiceAreas : List String) (showLongstreet : Bool) : Option MapExpr :=
  let conditions := [ownershipCondition selectedOwnership,
    propertyCondition selectedPropertyType, serviceAreaCondition selectedServiceAreas,
    longstreetCondition showLongstreet].filterMap id
  if conditions.length > 1 then some (.allE conditions) else conditions.head?

/-! ## Stats aggregation (stats.js `updateStatsPanel`) -/

/-- The features of one service area among the filtered features
(`features.filter(f => getServiceArea(f) === area)`). -/
def areaFeatures (features : List Feature) (area : String) : List Feature :=
  features.filter (fun f => jsStrictEq (getServiceArea f) (.str area))

/-- Per-area count row (`rows` in `updateStatsPanel`). -/
structure CountRow where
  area : String
  count : ℕ
deriving DecidableEq, Repr

/-- `features.reduce((acc, f) => acc + (getServiceArea(f) === area ? 1 : 0), 0)`. -/
def countFor (features : List Feature) (area : String) : ℕ :=
  features.foldl (fun acc f => acc + (if jsStrictEq (getServiceArea f) (.str area) then 1 else 0)) 0

/-- The per-area count rows, in selection order. -/
def countRows (features : List Feature) (areas : List String) : List CountRow :=
  areas.map (fun area => ⟨area, countFor features area⟩)

/-- `f && f.properties ? f.properties.square_footage : null` (an absent
`square_footage` attribute reads as undefined; both fail the numeric
check identically, so it is modelled as null). -/
def sfOf (f : Feature) : JSVal :=
  match f with
  | some p => p.square_footage.getD .null
  | none => .null

/-- Per-area size row (`sizeRows` in `updateStatsPanel`); `avgSf = none`
models the null average rendered as a dash. -/
structure SizeRow where
  area : String
  totalSf : ℚ
  avgSf : Option ℚ
  countWithSf : ℕ
deriving DecidableEq, Repr

/-- The per-area square-footage aggregation of `updateStatsPanel`. -/
def sizeRowFor (features : List Feature) (area : String) : SizeRow :=
  let af := areaFeatures features area
  let numericSfs := (af.map sfOf).filter isFiniteNum
  let totalSf := numericSfs.foldl (fun sum v => sum + finVal v) 0
  let avgSf := if numericSfs.length > 0 then some (totalSf / numericSfs.length) else none
  ⟨area, totalSf, avgSf, numericSfs.length⟩

/-- The per-area size rows, in selection order. -/
def sizeRows (features : List Feature) (areas : List String) : List SizeRow :=
  areas.map (sizeRowFor features)

/-- The `land_size` attribute as read by the acreage aggregation. -/
def landOf (p : Properties) : JSVal := p.land_size.getD .null

/-- `!grouping || grouping === "None"`: the standalone test on the
grouping attribute. -/
def isStandaloneG (g : Option JSVal) : Bool :=
  !(truthyO g) || jsStrictEqO g (.str "None")

/-- The sum of numeric finite acreage over standalone features
(`standaloneAcres` in `updateStatsPanel`, also lines 203-212 of the
headline computation). -/
def standaloneAcres (fs : List Feature) : ℚ :=
  fs.foldl (fun sum f =>
    let p := propsOf f
    if isStandaloneG p.grouping && isFiniteNum (landOf p) then sum + finVal (landOf p)
    else sum) 0

/-- The (grouping, acres) entry a feature contributes to the grouped-max
map: present when the grouping is truthy, not "None", and the acreage is
a finite number. -/
def groupedEntry (p : Properties) : Option (JSVal × ℚ) :=
  match p.grouping with
  | some g =>
    if truthy g && !(jsStrictEq g (.str "None")) && isFiniteNum (landOf p) then
      some (g, finVal (landOf p))
    else none
  | none => none

/-- Lookup in the association-list model of the JS `Map` (keys compare by
SameValueZero, i.e. structural equality on `JSVal`). -/
def lookupSV (m : List (JSVal × ℚ)) (k : JSVal) : Option ℚ :=
  (m.find? (fun e => e.1 = k)).map (fun e => e.2)

/-- `Map.prototype.set` on an existing key: update in place, keeping the
insertion position. -/
def setSV (m : List (JSVal × ℚ)) (k : JSVal) (v : ℚ) : List (JSVal × ℚ) :=
  m.map (fun e => if e.1 = k then (k, v) else e)

/-- One step of the `forEach` that builds `groupingToMaxAcres`: on a
grouped feature, set the key when new, or raise the stored acreage when
the feature's acreage is larger. -/
def groupStep (m : List (JSVal × ℚ)) (f : Feature) : List (JSVal × ℚ) :=
  match groupedEntry (propsOf f) with
  | none => m
  | some (k, a) =>
    match lookupSV m k with
    | none => m ++ [(k, a)]
    | some prev => if prev < a then setSV m k a else m

/-- The `groupingToMaxAcres` map after the `forEach` over the features. -/
def groupingToMaxAcres (fs : List Feature) : List (JSVal × ℚ) :=
  fs.foldl groupStep []

/-- `Array.from(map.values()).reduce((a, b) => a + b, 0)`. -/
def groupedAcres (fs : List Feature) : ℚ :=
  ((groupingToMaxAcres fs).map (fun e => e.2)).sum

/-- Per-area acreage row (`acresRows` in `updateStatsPanel`). -/
structure AcresRow where
  area : String
  totalAcres : ℚ
deriving DecidableEq, Repr

/-- The per-area total acreage: standalone sum plus grouped per-key max. -/
def acresTotalFor (features : List Feature) (area : String) : ℚ :=
  let af := areaFeatures features area
  standaloneAcres af + groupedAcres af

/-- The per-area acreage rows, in selection order. -/
def acresRows (features : List Feature) (areas : List String) : List AcresRow :=
  areas.map (fun area => ⟨area, acresTotalFor features area⟩)

/-- The headline total square footage over the whole filtered set
(lines 233-236 of `updateStatsPanel`). -/
def headlineTotalSf (features : List Feature) : ℚ :=
  ((features.map sfOf).filter isFiniteNum).foldl (fun sum v => sum + finVal v) 0

/-- The headline total acreage over the whole filtered set, recomputed
with the same grouping-deduplication algorithm (lines 203-227). -/
def headlineAcres (features : List Feature) : ℚ :=
  standaloneAcres features + groupedAcres features

/-- The filtered feature list of `updateStatsPanel` (line 129). -/
def filteredFeatures (portfolio : List Feature) (own ptype : String)
    (areas : List String) (long : Bool) : List Feature :=
  portfolio.filter (fun f => filterFeature f own ptype areas long)

/-! ## Stats presentation row models

The render functions of stats.js produce HTML rows; the model keeps the
data each row carries: its label, its numeric value and whether it is the
synthesized "Total" row.  An empty input renders the "No data"
placeholder, modelled as the empty row list.
-/

/-- A rendered row of one of the stats tables. -/
structure RenderedCell (α : Type) where
  label : String
  value : α
  isTotal : Bool
deriving DecidableEq, Repr

/-- stats.js `renderRows`: per-area count rows plus, when `showTotal`,
one "Total" row summing the counts (the source's `Number.isFinite`
guard is the identity on naturals). -/
def renderRows (rows : List CountRow) (showTotal : Bool) : List (RenderedCell ℕ) :=
  if rows.isEmpty then []
  else
    rows.map (fun r => ⟨r.area, r.count, false⟩) ++
      (if showTotal then [⟨"Total", rows.foldl (fun sum r => sum + r.count) 0, true⟩] else [])

/-- stats.js `renderSizeTotalRows`: per-area total-SF rows plus, when
`showTotal`, one "Total" row summing the totals. -/
def renderSizeTotalRows (rows : List SizeRow) (showTotal : Bool) : List (RenderedCell ℚ) :=
  if rows.isEmpty then []
  else
    rows.map (fun r => ⟨r.area, r.totalSf, false⟩) ++
      (if showTotal then [⟨"Total", rows.foldl (fun sum r => sum + r.totalSf) 0, true⟩] else [])

/-- stats.js `renderSizeAvgRows`: per-area average rows only; the
function has no total branch. -/
def renderSizeAvgRows (rows : List SizeRow) : List (RenderedCell (Option ℚ)) :=
  if rows.isEmpty then []
  else rows.map (fun r => ⟨r.area, r.avgSf, false⟩)

/-- stats.js `renderAcresRows`: per-area acreage rows plus, when
`showTotal`, one "Total" row summing the acreages. -/
def renderAcresRows (rows : List AcresRow) (showTotal : Bool) : List (RenderedCell ℚ) :=
  if rows.isEmpty then []
  else
    rows.map (fun r => ⟨r.area, r.totalAcres, false⟩) ++
      (if showTotal then [⟨"Total", rows.foldl (fun sum r => sum + r.totalAcres) 0, true⟩] else [])

/-! ## The service-area filter setter (main.js `initializeServiceAreaFilter`) -/

/-- The update performed by the service-area filter event handler:
`currentSelected` is the list of selected option values read from the
component, `componentValue` is `serviceAreaFilter.value` when it is an
array (`none` otherwise).  An empty result is replaced by the full
enumeration. -/
def updateSelectedServiceAreas (currentSelected : List String)
    (componentValue : Option (List String)) : List String :=
  let selected :=
    if currentSelected.isEmpty then
      match componentValue with
      | some v => v
      | none => currentSelected
    else currentSelected
  if selected.isEmpty then ALL_SERVICE_AREAS else selected

/-! ## Specification-side formulas

These definitions follow the words of the spec and of the claims, to be
compared with the source-embedded computations above.
-/

/-- Merge of two optional maxima. -/
def omax : Option ℚ → Option ℚ → Option ℚ
  | none, b => b
  | some x, none => some x
  | some x, some y => some (max x y)

/-- The maximum of a list of rationals, `none` on the empty list. -/
def listMaxQ (l : List ℚ) : Option ℚ :=
  l.foldl (fun acc x => omax acc (some x)) none

/-- The (key, acres) pairs the grouped branch of the code considers. -/
def acresPairs (fs : List Feature) : List (JSVal × ℚ) :=
  fs.filterMap (fun f => groupedEntry (propsOf f))

/-- The grouping keys occurring among the grouped features. -/
def acresKeys (fs : List Feature) : List JSVal :=
  (acresPairs fs).map (fun e => e.1)

/-- The maximum numeric finite acreage among features sharing grouping
key `k` (per the code's notion of "grouped": truthy and not "None"). -/
def specMaxAcres (fs : List Feature) (k : JSVal) : Option ℚ :=
  listMaxQ (((acresPairs fs).filter (fun e => e.1 = k)).map (fun e => e.2))

/-- Canonical form of the grouped acreage: the sum, over the distinct
grouping keys, of the per-key maximum. -/
def groupedAcresSpec (fs : List Feature) : ℚ :=
  ∑ k ∈ (acresKeys fs).toFinset, ((specMaxAcres fs k).getD 0)

/-- The standalone acreage a single feature contributes (per the code:
grouping falsy or "None", acreage numeric finite). -/
def standaloneWeight (f : Feature) : ℚ :=
  let p := propsOf f
  if isStandaloneG p.grouping && isFiniteNum (landOf p) then finVal (landOf p) else 0

/-- Modelled from the claim C4 words: a feature is standalone when its
groupingKey is absent or "None" (the code instead treats every falsy
grouping, e.g. the empty string, as standalone). -/
def claimStandaloneWeight (f : Feature) : ℚ :=
  let p := propsOf f
  if (p.grouping.isNone || jsStrictEqO p.grouping (.str "None")) && isFiniteNum (landOf p) then
    finVal (landOf p)
  else 0

/-- Modelled from the claim C4 words: the grouped entry of a feature
whose groupingKey is present and not "None" (the code additionally
requires the key to be truthy). -/
def claimGroupedEntry (p : Properties) : Option (JSVal × ℚ) :=
  match p.grouping with
  | some g =>
    if !(jsStrictEq g (.str "None")) && isFiniteNum (landOf p) then
      some (g, finVal (landOf p))
    else none
  | none => none

/-- The claim-side (key, acres) pairs. -/
def claimAcresPairs (fs : List Feature) : List (JSVal × ℚ) :=
  fs.filterMap (fun f => claimGroupedEntry (propsOf f))

/-- The claim-side per-key maximum. -/
def claimMaxAcres (fs : List Feature) (k : JSVal) : Option ℚ :=
  listMaxQ (((claimAcresPairs fs).filter (fun e => e.1 = k)).map (fun e => e.2))

/-- Modelled from the claim C4 words: standalone sum plus per-distinct-key
maximum, for one service area's feature set. -/
def claimTotalAcres (features : List Feature) (area : String) : ℚ :=
  let af := areaFeatures features area
  (af.map claimStandaloneWeight).sum +
    ∑ k ∈ ((claimAcresPairs af).map (fun e => e.1)).toFinset, ((claimMaxAcres af k).getD 0)

/-- Modelled from the claim C10 words: the service area read as
`properties.service_area`, falling back to `properties.label` only when
`service_area` is missing, and to the empty string otherwise. -/
def claimGetServiceArea (feature : Feature) : JSVal :=
  match feature with
  | none => .str ""
  | some p =>
    match p.service_area with
    | some v => v
    | none =>
      match p.label with
      | some l => l
      | none => .str ""

/-! ## Basic fold and filter lemmas -/

theorem foldl_add_init (l : List α) (g : α → ℚ) (init : ℚ) :
    l.foldl (fun s x => s + g x) init = init + (l.map g).sum := by
  induction l generalizing init with
  | nil => simp
  | cons x xs ih => simp [ih, add_assoc]

theorem foldl_add_init_nat (l : List α) (g : α → ℕ) (init : ℕ) :
    l.foldl (fun s x => s + g x) init = init + (l.map g).sum := by
  induction l generalizing init with
  | nil => simp
  | cons x xs ih => simp [ih, Nat.add_assoc]

theorem foldl_ite_add (l : List α) (c : α → Bool) (g : α → ℚ) (init : ℚ) :
    l.foldl (fun s x => if c x then s + g x else s) init =
      init + (l.map (fun x => if c x then g x else 0)).sum := by
  induction l generalizing init with
  | nil => simp
  | cons x xs ih =>
    by_cases h : c x = true
    · simp [h, ih, add_assoc]
    · simp only [List.foldl_cons, List.map_cons, List.sum_cons]
      rw [if_neg h, if_neg h, ih, zero_add]

theorem countFor_eq_length (features : List Feature) (area : String) :
    countFor features area = (areaFeatures features area).length := by
  unfold countFor areaFeatures
  rw [foldl_add_init_nat features
    (fun f => if jsStrictEq (getServiceArea f) (.str area) then 1 else 0) 0, zero_add]
  induction features with
  | nil => simp
  | cons f fs ih =>
    by_cases h : jsStrictEq (getServiceArea f) (.str area) = true
    · simp [h, ih]
      omega
    · simp [h, ih]

theorem standaloneAcres_eq_sum (fs : List Feature) :
    standaloneAcres fs = (fs.map standaloneWeight).sum := by
  unfold standaloneAcres standaloneWeight
  rw [show (fun (sum : ℚ) (f : Feature) =>
      let p := propsOf f
      if isStandaloneG p.grouping && isFiniteNum (landOf p) then sum + finVal (landOf p)
      else sum) = (fun sum f =>
        if (fun f => isStandaloneG (propsOf f).grouping && isFiniteNum (landOf (propsOf f))) f
        then sum + finVal (landOf (propsOf f)) else sum) from rfl]
  rw [foldl_ite_add, zero_add]

/-! ## The grouped-max map: canonical form -/

/-- One step of the grouped-max map build, at the level of (key, acres)
pairs. -/
def stepP (m : List (JSVal × ℚ)) (e : JSVal × ℚ) : List (JSVal × ℚ) :=
  match lookupSV m e.1 with
  | none => m ++ [e]
  | some prev => if prev < e.2 then setSV m e.1 e.2 else m

/-- The per-pair maximum over the filtered pairs. -/
def specMaxP (ps : List (JSVal × ℚ)) (k : JSVal) : Option ℚ :=
  listMaxQ ((ps.filter (fun e => e.1 = k)).map (fun e => e.2))

theorem groupStep_eq_stepP (m : List (JSVal × ℚ)) (f : Feature) :
    groupStep m f =
      match groupedEntry (propsOf f) with
      | none => m
      | some e => stepP m e := by
  unfold groupStep stepP
  cases groupedEntry (propsOf f) with
  | none => rfl
  | some e => rfl

theorem foldl_groupStep_eq (fs : List Feature) :
    ∀ m : List (JSVal × ℚ), fs.foldl groupStep m = (acresPairs fs).foldl stepP m := by
  induction fs with
  | nil => intro m; rfl
  | cons f fs ih =>
    intro m
    rw [List.foldl_cons, groupStep_eq_stepP]
    cases he : groupedEntry (propsOf f) with
    | none => simp only [acresPairs, List.filterMap_cons, he]; exact ih m
    | some e => simp only [acresPairs, List.filterMap_cons, he, List.foldl_cons]; exact ih (stepP m e)

theorem lookupSV_cons (e : JSVal × ℚ) (m : List (JSVal × ℚ)) (k : JSVal) :
    lookupSV (e :: m) k = if e.1 = k then some e.2 else lookupSV m k := by
  by_cases he : e.1 = k
  · simp [lookupSV, List.find?, he]
  · simp [lookupSV, List.find?, he]

theorem setSV_cons (e : JSVal × ℚ) (m : List (JSVal × ℚ)) (k : JSVal) (v : ℚ) :
    setSV (e :: m) k v = (if e.1 = k then (k, v) else e) :: setSV m k v := rfl

theorem lookupSV_append_of_none (m : List (JSVal × ℚ)) (k : JSVal) (a : ℚ)
    (h : lookupSV m k = none) : lookupSV (m ++ [(k, a)]) k = some a := by
  induction m with
  | nil => simp [lookupSV, List.find?]
  | cons e m ih =>
    rw [lookupSV_cons] at h
    by_cases he : e.1 = k
    · rw [if_pos he] at h; exact absurd h (by simp)
    · rw [if_neg he] at h
      rw [List.cons_append, lookupSV_cons, if_neg he]
      exact ih h

theorem lookupSV_append_ne (m : List (JSVal × ℚ)) (k k2 : JSVal) (a : ℚ)
    (h : k2 ≠ k) : lookupSV (m ++ [(k, a)]) k2 = lookupSV m k2 := by
  induction m with
  | nil =>
    rw [List.nil_append, lookupSV_cons, if_neg (fun hh => h hh.symm)]
  | cons e m ih =>
    rw [List.cons_append, lookupSV_cons, lookupSV_cons, ih]

theorem lookupSV_setSV_self (m : List (JSVal × ℚ)) (k : JSVal) (a : ℚ)
    (h : lookupSV m k ≠ none) : lookupSV (setSV m k a) k = some a := by
  induction m with
  | nil => simp [lookupSV] at h
  | cons e m ih =>
    rw [setSV_cons]
    by_cases he : e.1 = k
    · rw [if_pos he, lookupSV_cons]
      simp
    · rw [lookupSV_cons] at h
      rw [if_neg he] at h
      rw [if_neg he, lookupSV_cons, if_neg he]
      exact ih h

theorem lookupSV_setSV_ne (m : List (JSVal × ℚ)) (k k2 : JSVal) (a : ℚ)
    (h : k2 ≠ k) : lookupSV (setSV m k a) k2 = lookupSV m k2 := by
  induction m with
  | nil => rfl
  | cons e m ih =>
    rw [setSV_cons]
    by_cases he : e.1 = k
    · have hk : ¬ e.1 = k2 := by rw [he]; exact fun hh => h hh.symm
      rw [if_pos he, lookupSV_cons, lookupSV_cons,
        if_neg (fun hh => h hh.symm : ¬ (k, a).1 = k2), if_neg hk]
      exact ih
    · rw [if_neg he, lookupSV_cons, lookupSV_cons, ih]

theorem omax_none_right (a : Option ℚ) : omax a none = a := by
  cases a <;> rfl

theorem omax_assoc (a b c : Option ℚ) : omax (omax a b) c = omax a (omax b c) := by
  cases a <;> cases b <;> cases c <;> simp [omax, max_assoc]

theorem listMaxQ_foldl (l : List ℚ) :
    ∀ acc : Option ℚ, l.foldl (fun a x => omax a (some x)) acc = omax acc (listMaxQ l) := by
  induction l with
  | nil => intro acc; rw [List.foldl_nil, listMaxQ, List.foldl_nil, omax_none_right]
  | cons x xs ih =>
    intro acc
    rw [List.foldl_cons, ih (omax acc (some x)), omax_assoc]
    rw [show listMaxQ (x :: xs) = (x :: xs).foldl (fun a x => omax a (some x)) none from rfl]
    rw [List.foldl_cons, ih (omax none (some x))]
    rfl

theorem listMaxQ_cons (x : ℚ) (l : List ℚ) :
    listMaxQ (x :: l) = omax (some x) (listMaxQ l) := by
  rw [show listMaxQ (x :: l) = (x :: l).foldl (fun a x => omax a (some x)) none from rfl]
  rw [List.foldl_cons, listMaxQ_foldl]
  rfl

theorem listMaxQ_eq_none_iff (l : List ℚ) : listMaxQ l = none ↔ l = [] := by
  cases l with
  | nil => simp [listMaxQ]
  | cons x xs =>
    rw [listMaxQ_cons]
    cases listMaxQ xs <;> simp [omax]

theorem specMaxP_cons_self (e : JSVal × ℚ) (ps : List (JSVal × ℚ)) (k : JSVal) (he : e.1 = k) :
    specMaxP (e :: ps) k = omax (some e.2) (specMaxP ps k) := by
  unfold specMaxP
  rw [List.filter_cons, if_pos (by simpa using he), List.map_cons, listMaxQ_cons]

theorem specMaxP_cons_ne (e : JSVal × ℚ) (ps : List (JSVal × ℚ)) (k : JSVal) (he : ¬ e.1 = k) :
    specMaxP (e :: ps) k = specMaxP ps k := by
  unfold specMaxP
  rw [List.filter_cons, if_neg (by simpa using he)]

theorem omax_absorb_left (prev x : ℚ) (s : Option ℚ) (h : x ≤ prev) :
    omax (some prev) (omax (some x) s) = omax (some prev) s := by
  cases s with
  | none => simp [omax, max_eq_left h]
  | some y =>
    simp only [omax]
    rw [← max_assoc, max_eq_left h]

theorem omax_absorb_right (prev x : ℚ) (s : Option ℚ) (h : prev < x) :
    omax (some prev) (omax (some x) s) = omax (some x) s := by
  cases s with
  | none => simp [omax, max_eq_right h.le]
  | some y =>
    simp only [omax]
    rw [← max_assoc, max_eq_right h.le]

theorem stepP_of_none (m : List (JSVal × ℚ)) (e : JSVal × ℚ)
    (h : lookupSV m e.1 = none) : stepP m e = m ++ [e] := by
  unfold stepP; rw [h]

theorem stepP_of_lt (m : List (JSVal × ℚ)) (e : JSVal × ℚ) (prev : ℚ)
    (h : lookupSV m e.1 = some prev) (hlt : prev < e.2) : stepP m e = setSV m e.1 e.2 := by
  unfold stepP; rw [h]; exact if_pos hlt

theorem stepP_of_ge (m : List (JSVal × ℚ)) (e : JSVal × ℚ) (prev : ℚ)
    (h : lookupSV m e.1 = some prev) (hge : ¬ prev < e.2) : stepP m e = m := by
  unfold stepP; rw [h]; exact if_neg hge

theorem lookup_foldl_stepP (ps : List (JSVal × ℚ)) :
    ∀ (m : List (JSVal × ℚ)) (k : JSVal),
      lookupSV (ps.foldl stepP m) k = omax (lookupSV m k) (specMaxP ps k) := by
  induction ps with
  | nil =>
    intro m k
    rw [List.foldl_nil, show specMaxP [] k = none from rfl, omax_none_right]
  | cons e ps ih =>
    intro m k
    obtain ⟨k1, a⟩ := e
    rw [List.foldl_cons, ih (stepP m (k1, a)) k]
    by_cases hek : k1 = k
    · subst hek
      rw [specMaxP_cons_self (k1, a) ps k1 rfl]
      cases hl : lookupSV m k1 with
      | none =>
        rw [stepP_of_none m (k1, a) hl, lookupSV_append_of_none m k1 a hl]
        rfl
      | some prev =>
        by_cases hlt : prev < a
        · rw [stepP_of_lt m (k1, a) prev hl hlt,
            lookupSV_setSV_self m k1 a (by rw [hl]; simp),
            omax_absorb_right prev a _ hlt]
        · rw [stepP_of_ge m (k1, a) prev hl hlt, hl,
            omax_absorb_left prev a _ (not_lt.mp hlt)]
    · rw [specMaxP_cons_ne (k1, a) ps k hek]
      have hstep : lookupSV (stepP m (k1, a)) k = lookupSV m k := by
        cases hl : lookupSV m k1 with
        | none =>
          rw [stepP_of_none m (k1, a) hl, lookupSV_append_ne m k1 k a (fun hh => hek hh.symm)]
        | some prev =>
          by_cases hlt : prev < a
          · rw [stepP_of_lt m (k1, a) prev hl hlt,
              lookupSV_setSV_ne m k1 k a (fun hh => hek hh.symm)]
          · rw [stepP_of_ge m (k1, a) prev hl hlt]
      rw [hstep]

theorem keys_setSV (m : List (JSVal × ℚ)) (k : JSVal) (v : ℚ) :
    (setSV m k v).map (fun e => e.1) = m.map (fun e => e.1) := by
  induction m with
  | nil => rfl
  | cons e m ih =>
    rw [setSV_cons, List.map_cons, List.map_cons, ih]
    by_cases he : e.1 = k
    · rw [if_pos he, he]
    · rw [if_neg he]

theorem lookupSV_eq_none_iff (m : List (JSVal × ℚ)) (k : JSVal) :
    lookupSV m k = none ↔ k ∉ m.map (fun e => e.1) := by
  induction m with
  | nil => simp [lookupSV]
  | cons e m ih =>
    rw [lookupSV_cons, List.map_cons]
    by_cases he : e.1 = k
    · simp [he]
    · simp only [if_neg he, List.mem_cons, ih]
      constructor
      · intro h hmem
        cases hmem with
        | inl hh => exact he hh.symm
        | inr hh => exact h hh
      · intro h hmem
        exact h (Or.inr hmem)

theorem nodup_keys_stepP (m : List (JSVal × ℚ)) (e : JSVal × ℚ)
    (h : (m.map (fun x => x.1)).Nodup) : ((stepP m e).map (fun x => x.1)).Nodup := by
  cases hl : lookupSV m e.1 with
  | none =>
    rw [stepP_of_none m e hl, List.map_append]
    simp only [List.map_cons, List.map_nil]
    rw [List.nodup_append]
    refine ⟨h, List.nodup_singleton _, ?_⟩
    intro x hx hy
    simp only [List.mem_singleton] at hy
    subst hy
    exact absurd hx ((lookupSV_eq_none_iff m e.1).mp hl)
  | some prev =>
    by_cases hlt : prev < e.2
    · rw [stepP_of_lt m e prev hl hlt, keys_setSV]
      exact h
    · rw [stepP_of_ge m e prev hl hlt]
      exact h

theorem nodup_keys_foldl_stepP (ps : List (JSVal × ℚ)) :
    ∀ m : List (JSVal × ℚ), (m.map (fun x => x.1)).Nodup →
      ((ps.foldl stepP m).map (fun x => x.1)).Nodup := by
  induction ps with
  | nil => intro m h; exact h
  | cons e ps ih =>
    intro m h
    rw [List.foldl_cons]
    exact ih (stepP m e) (nodup_keys_stepP m e h)

theorem sum_values_eq_finset_sum (m : List (JSVal × ℚ))
    (h : (m.map (fun x => x.1)).Nodup) :
    (m.map (fun e => e.2)).sum =
      ∑ k ∈ (m.map (fun e => e.1)).toFinset, ((lookupSV m k).getD 0) := by
  induction m with
  | nil => simp
  | cons e m ih =>
    rw [List.map_cons, List.sum_cons, List.map_cons, List.toFinset_cons]
    rw [List.map_cons, List.nodup_cons] at h
    obtain ⟨hnot, hnd⟩ := h
    rw [Finset.sum_insert (by simpa using hnot)]
    rw [lookupSV_cons, if_pos rfl]
    rw [ih hnd]
    congr 1
    apply Finset.sum_congr rfl
    intro k hk
    rw [lookupSV_cons, if_neg ?_]
    intro hcontra
    rw [hcontra] at hnot
    exact hnot (by simpa using hk)

theorem specMaxP_eq_none_iff (ps : List (JSVal × ℚ)) (k : JSVal) :
    specMaxP ps k = none ↔ k ∉ ps.map (fun e => e.1) := by
  unfold specMaxP
  rw [listMaxQ_eq_none_iff, List.map_eq_nil_iff, List.filter_eq_nil_iff]
  simp only [decide_eq_true_eq]
  constructor
  · intro h hmem
    obtain ⟨e, he, hk⟩ := List.mem_map.mp hmem
    exact h e he hk
  · intro h e he hk
    exact h (List.mem_map.mpr ⟨e, he, hk⟩)

theorem keysFinset_foldl_stepP (ps : List (JSVal × ℚ)) :
    (((ps.foldl stepP []).map (fun e => e.1)).toFinset) = ((ps.map (fun e => e.1)).toFinset) := by
  apply Finset.ext
  intro k
  rw [List.mem_toFinset, List.mem_toFinset]
  have h1 := lookup_foldl_stepP ps [] k
  rw [show lookupSV [] k = none from rfl] at h1
  rw [show omax none (specMaxP ps k) = specMaxP ps k from rfl] at h1
  constructor
  · intro hk
    by_contra hnot
    have := (specMaxP_eq_none_iff ps k).mpr hnot
    rw [this] at h1
    exact absurd hk (by simpa using (lookupSV_eq_none_iff _ k).mp h1)
  · intro hk
    by_contra hnot
    have := (lookupSV_eq_none_iff (ps.foldl stepP []) k).mpr hnot
    rw [h1] at this
    exact absurd hk (by simpa using (specMaxP_eq_none_iff ps k).mp this)

/-- Canonical form of the grouped acreage computation: the sum of the
grouped-max map's values is the sum, over the distinct grouping keys, of
the per-key maximum acreage. -/
theorem groupedAcres_eq_spec (fs : List Feature) :
    groupedAcres fs = groupedAcresSpec fs := by
  unfold groupedAcres groupedAcresSpec groupingToMaxAcres acresKeys
  rw [foldl_groupStep_eq fs []]
  rw [sum_values_eq_finset_sum _ (nodup_keys_foldl_stepP (acresPairs fs) [] (by simp))]
  rw [keysFinset_foldl_stepP]
  apply Finset.sum_congr rfl
  intro k hk
  rw [lookup_foldl_stepP (acresPairs fs) [] k]
  rfl

/-! ## Partition of sums across service areas -/

theorem sum_over_filter (l : List α) (c : α → Bool) (g : α → ℚ) :
    ((l.filter c).map g).sum = (l.map (fun x => if c x then g x else 0)).sum := by
  induction l with
  | nil => rfl
  | cons x xs ih =>
    rw [List.filter_cons]
    by_cases h : c x = true
    · rw [if_pos h, List.map_cons, List.sum_cons, List.map_cons, List.sum_cons, if_pos h, ih]
    · rw [if_neg h, List.map_cons, List.sum_cons, if_neg h, ih, zero_add]

theorem sum_map_ite_add (areas : List String) (g : String → ℚ) (a₀ : String) (x : ℚ)
    (hnd : areas.Nodup) (ha : a₀ ∈ areas) :
    (areas.map (fun a => g a + (if a = a₀ then x else 0))).sum = (areas.map g).sum + x := by
  induction areas with
  | nil => cases ha
  | cons b rest ih =>
    rw [List.nodup_cons] at hnd
    obtain ⟨hbnot, hndr⟩ := hnd
    rw [List.map_cons, List.sum_cons, List.map_cons, List.sum_cons]
    rcases List.mem_cons.mp ha with hb | hrest
    · rw [if_pos hb.symm]
      have hrest0 : ∀ a ∈ rest, g a + (if a = a₀ then x else 0) = g a := by
        intro a har
        have hne : ¬ a = a₀ := by
          intro hh
          exact hbnot (by rw [← hb, ← hh]; exact har)
        rw [if_neg hne, add_zero]
      rw [List.map_congr_left hrest0]
      ring
    · have hb : ¬ b = a₀ := fun hh => hbnot (hh ▸ hrest)
      rw [if_neg hb, ih hndr hrest]
      ring

theorem sum_partition (fs : List Feature) (areas : List String) (w : Feature → ℚ)
    (hnd : areas.Nodup)
    (hall : ∀ f ∈ fs, ∃ a ∈ areas, getServiceArea f = .str a) :
    (fs.map w).sum = (areas.map (fun a => ((areaFeatures fs a).map w).sum)).sum := by
  induction fs with
  | nil =>
    rw [List.map_nil, List.sum_nil]
    rw [List.map_congr_left (fun a _ => by
      rw [show areaFeatures [] a = [] from rfl, List.map_nil, List.sum_nil])]
    simp
  | cons f fs ih =>
    obtain ⟨a₀, ha₀, hsa⟩ := hall f (List.mem_cons_self f fs)
    rw [List.map_cons, List.sum_cons, ih (fun g hg => hall g (List.mem_cons_of_mem f hg))]
    have hmap : ∀ a ∈ areas, ((areaFeatures (f :: fs) a).map w).sum
        = ((areaFeatures fs a).map w).sum + (if a = a₀ then w f else 0) := by
      intro a ha
      unfold areaFeatures
      rw [List.filter_cons]
      by_cases haa : a = a₀
      · subst haa
        rw [hsa]
        rw [if_pos (by simp [jsStrictEq])]
        rw [List.map_cons, List.sum_cons, if_pos rfl]
        ring
      · have hcond : jsStrictEq (getServiceArea f) (.str a) = false := by
          rw [hsa]
          simp only [jsStrictEq]
          exact beq_eq_false_iff_ne.mpr (fun hh => haa hh.symm)
        rw [hcond]
        rw [if_neg (by simp), if_neg haa, add_zero]
    rw [List.map_congr_left hmap, sum_map_ite_add areas _ a₀ (w f) hnd ha₀]
    ring

/-! ## Conjunction forms of the two JS filter implementations -/

/-- The ownership dimension shared by all three implementations. -/
def ownershipPass (p : Properties) (own : String) : Bool :=
  if own != "" && own != "all" then jsStrictEqO p.ownership_type (.str own) else true

/-- The property-type dimension as the stats-path predicate decides it
(prefix matching via `startsWith`). -/
def ptypePassStats (p : Properties) (ptype : String) : Bool :=
  if ptype != "" && ptype != "All" then
    if ptype == "Medical Office" then
      jsStartsWith (jsToString (jsOr p.building_type (.str ""))) "Medical Office"
    else if ptype == "Other" then
      !(explicitCategories.contains (jsToString (jsOr p.building_type (.str "")))) &&
        !(jsStartsWith (jsToString (jsOr p.building_type (.str ""))) "Medical Office")
    else jsStrictEqO p.building_type (.str ptype)
  else true

/-- The property-type dimension as the materialized-collection filter
decides it (13-character slice comparison). -/
def ptypePassColl (p : Properties) (ptype : String) : Bool :=
  if ptype != "" && ptype != "All" then
    if ptype == "Medical Office" then
      strTake (jsToString (jsOr p.building_type (.str ""))) 13 == "Medical Office"
    else if ptype == "Other" then
      !(jsIncludesStr explicitCategories (jsOr p.building_type (.str ""))) &&
        !(strTake (jsToString (jsOr p.building_type (.str ""))) 13 == "Medical Office")
    else jsStrictEq (jsOr p.building_type (.str "")) (.str ptype)
  else true

/-- The service-area dimension as the stats-path predicate decides it:
membership of the derived service area whenever the selection is
non-empty. -/
def areaPassStats (p : Properties) (areas : List String) : Bool :=
  if !areas.isEmpty then jsIncludesStr areas (getServiceArea (some p)) else true

/-- The service-area dimension as the materialized-collection filter
decides it: membership of the raw `service_area` attribute, skipped when
the selection length equals the enumeration length. -/
def areaPassColl (p : Properties) (areas : List String) : Bool :=
  if !(areas.length == ALL_SERVICE_AREAS.length) then jsIncludesStrO areas p.service_area
  else true

/-- The longstreet dimension shared by all three implementations. -/
def longPass (p : Properties) (long : Bool) : Bool :=
  if long == false then !(jsStrictEqO p.longstreet (.str "Yes")) else true

theorem chain4 (c1 c2 c3 c4 : Bool) :
    (if c1 then false else if c2 then false else if c3 then false else if c4 then false
      else true) = (!c1 && !c2 && !c3 && !c4) := by
  cases c1 <;> cases c2 <;> cases c3 <;> cases c4 <;> rfl

theorem bool_guard_pass (g d : Bool) : (!(g && !d)) = (if g then d else true) := by
  cases g <;> cases d <;> rfl

theorem bool_guard_reject (g r : Bool) : (!(g && r)) = (if g then !r else true) := by
  cases g <;> cases r <;> rfl

theorem bool_not_ite (c a b : Bool) : (!(if c then a else b)) = (if c then !a else !b) := by
  cases c <;> rfl

theorem filterFeature_eq_conj (p : Properties) (own ptype : String) (areas : List String)
    (long : Bool) :
    filterFeature (some p) own ptype areas long =
      (ownershipPass p own && ptypePassStats p ptype && areaPassStats p areas &&
        longPass p long) := by
  show (if _ then false else if _ then false else if _ then false else if _ then false
    else true) = _
  rw [chain4, bool_guard_pass, bool_guard_reject, bool_guard_pass, bool_guard_reject,
    bool_not_ite, bool_not_ite, Bool.not_or]
  simp only [Bool.not_not]
  rfl

theorem collectionPred_eq_conj (feature : Feature) (own ptype : String) (areas : List String)
    (long : Bool) :
    collectionPred own ptype areas long feature =
      (ownershipPass (propsOf feature) own && ptypePassColl (propsOf feature) ptype &&
        areaPassColl (propsOf feature) areas && longPass (propsOf feature) long) := by
  show (if _ then false else if _ then false else if _ then false else if _ then false
    else true) = _
  rw [chain4, bool_guard_pass, bool_guard_reject, bool_guard_pass, bool_guard_reject,
    bool_not_ite, bool_not_ite, Bool.not_or]
  simp only [Bool.not_not]
  rfl

/-! ## Semantics of the built filter expression -/

/-- A condition evaluates, without error, to `true` on the feature. -/
def evalTrue (p : Properties) (e : MapExpr) : Bool :=
  evalExpr e p == some (.v (.bool true))

theorem evalAllList_all (cs : List MapExpr) (p : Properties)
    (h : ∀ e ∈ cs, ∃ b, evalExpr e p = some (.v (.bool b))) :
    evalAllList cs p = some (.v (.bool (cs.all (evalTrue p)))) := by
  induction cs with
  | nil => rfl
  | cons e cs ih =>
    obtain ⟨b, hb⟩ := h e (List.mem_cons_self e cs)
    rw [evalAllList, hb]
    cases b with
    | false => simp [List.all_cons, evalTrue, hb]
    | true =>
      rw [ih (fun c hc => h c (List.mem_cons_of_mem e hc))]
      simp [List.all_cons, evalTrue, hb]

theorem evalFilterExpr_package (cs : List MapExpr) (p : Properties)
    (h : ∀ e ∈ cs, ∃ b, evalExpr e p = some (.v (.bool b))) :
    evalFilterExpr (if cs.length > 1 then some (.allE cs) else cs.head?) p =
      cs.all (evalTrue p) := by
  match cs with
  | [] => rfl
  | [c] =>
    obtain ⟨b, hb⟩ := h c (List.mem_cons_self c [])
    rw [if_neg (by simp)]
    cases b with
    | false => simp [evalFilterExpr, hb, evalTrue]
    | true => simp [evalFilterExpr, hb, evalTrue]
  | c1 :: c2 :: rest =>
    rw [if_pos (by simp)]
    rw [show evalFilterExpr (some (.allE (c1 :: c2 :: rest))) p =
      (match evalExpr (.allE (c1 :: c2 :: rest)) p with
        | some (.v (.bool true)) => true
        | _ => false) from rfl]
    rw [show evalExpr (.allE (c1 :: c2 :: rest)) p = evalAllList (c1 :: c2 :: rest) p from by
      rw [evalExpr]]
    rw [evalAllList_all _ _ h]
    cases (c1 :: c2 :: rest).all (evalTrue p) <;> rfl

theorem jsOr_str_empty (bt : String) : jsOr (some (.str bt)) (.str "") = .str bt := by
  by_cases h : bt = ""
  · subst h; rfl
  · simp [jsOr, truthy, h]

theorem glEq_getD_str (v : Option JSVal) (t : String) :
    glEq (v.getD .null) (.str t) = jsStrictEqO v (.str t) := by
  cases v with
  | none => rfl
  | some x => rfl

theorem str_beq_comm (a b : String) : (a == b) = (b == a) := by
  by_cases hab : a = b
  · subst hab; rfl
  · rw [beq_eq_false_iff_ne.mpr hab, beq_eq_false_iff_ne.mpr (Ne.symm hab)]

theorem pget_ownership (p : Properties) : pget p "ownership_type" = p.ownership_type.getD .null := by
  rw [pget, if_pos (by decide)]

theorem pget_building (p : Properties) : pget p "building_type" = p.building_type.getD .null := by
  rw [pget, if_neg (by decide), if_pos (by decide)]

theorem pget_service (p : Properties) : pget p "service_area" = p.service_area.getD .null := by
  rw [pget, if_neg (by decide), if_neg (by decide), if_pos (by decide)]

theorem pget_longstreet (p : Properties) : pget p "longstreet" = p.longstreet.getD .null := by
  rw [pget, if_neg (by decide), if_neg (by decide), if_neg (by decide), if_pos (by decide)]

theorem evalTrue_of_bool (p : Properties) (e : MapExpr) (b : Bool)
    (hb : evalExpr e p = some (.v (.bool b))) : evalTrue p e = b := by
  cases b <;> simp [evalTrue, hb]

theorem eval_ownership_cond (p : Properties) (own : String) :
    evalExpr (.eqE (.get "ownership_type") (.lit (.str own))) p =
      some (.v (.bool (jsStrictEqO p.ownership_type (.str own)))) := by
  rw [evalExpr]
  rw [show evalExpr (.get "ownership_type") p = some (.v (pget p "ownership_type")) from by
    rw [evalExpr]]
  rw [show evalExpr (.lit (.str own)) p = some (.v (.str own)) from by rw [evalExpr]]
  rw [pget_ownership]
  show some (EVal.v (JSVal.bool (glEq (p.ownership_type.getD JSVal.null) (JSVal.str own)))) = _
  rw [glEq_getD_str]

theorem eval_longstreet_cond (p : Properties) :
    evalExpr (.neE (.get "longstreet") (.lit (.str "Yes"))) p =
      some (.v (.bool (!(jsStrictEqO p.longstreet (.str "Yes"))))) := by
  rw [evalExpr]
  rw [show evalExpr (.get "longstreet") p = some (.v (pget p "longstreet")) from by rw [evalExpr]]
  rw [show evalExpr (.lit (.str "Yes")) p = some (.v (.str "Yes")) from by rw [evalExpr]]
  rw [pget_longstreet]
  show some (EVal.v (JSVal.bool (!(glEq (p.longstreet.getD JSVal.null) (JSVal.str "Yes"))))) = _
  rw [glEq_getD_str]

theorem eval_area_cond (p : Properties) (areas : List String) (s : String)
    (hsa : p.service_area = some (.str s)) :
    evalExpr (.inE (.get "service_area") (.litList areas)) p =
      some (.v (.bool (areas.contains s))) := by
  rw [evalExpr]
  rw [show evalExpr (.get "service_area") p = some (.v (pget p "service_area")) from by
    rw [evalExpr]]
  rw [show evalExpr (.litList areas) p = some (.strs areas) from by rw [evalExpr]]
  rw [pget_service, hsa]
  rfl

theorem eval_slice_building (p : Properties) (bt : String)
    (hbt : p.building_type = some (.str bt)) :
    evalExpr (.sliceE (.get "building_type") 0 13) p = some (.v (.str (strTake bt 13))) := by
  rw [evalExpr]
  rw [show evalExpr (.get "building_type") p = some (.v (pget p "building_type")) from by
    rw [evalExpr]]
  rw [pget_building, hbt]
  rfl

theorem contains_singleton (x a : String) : [a].contains x = (x == a) := by
  by_cases h : x = a
  · subst h; simp
  · simp [h]

theorem eval_mo_cond (p : Properties) (bt : String)
    (hbt : p.building_type = some (.str bt)) :
    evalExpr (.matchE (.sliceE (.get "building_type") 0 13) ["Medical Office"]
      (.lit (.bool true)) (.lit (.bool false))) p =
      some (.v (.bool (strTake bt 13 == "Medical Office"))) := by
  rw [evalExpr, eval_slice_building p bt hbt]
  show (if ["Medical Office"].contains (strTake bt 13) then
    evalExpr (.lit (.bool true)) p else evalExpr (.lit (.bool false)) p) = _
  rw [contains_singleton (strTake bt 13) "Medical Office"]
  by_cases h : (strTake bt 13 == "Medical Office") = true
  · rw [h, if_pos rfl, evalExpr]
  · rw [Bool.not_eq_true] at h
    rw [h, if_neg (by simp), evalExpr]

theorem eval_other_cond (p : Properties) (bt : String)
    (hbt : p.building_type = some (.str bt)) :
    evalExpr (.allE [.notE (.inE (.get "building_type") (.litList explicitCategories)),
      .neE (.sliceE (.get "building_type") 0 13) (.lit (.str "Medical Office"))]) p =
      some (.v (.bool (!(explicitCategories.contains bt) &&
        !(strTake bt 13 == "Medical Office")))) := by
  have h1 : evalExpr (.notE (.inE (.get "building_type") (.litList explicitCategories))) p =
      some (.v (.bool (!(explicitCategories.contains bt)))) := by
    rw [evalExpr]
    rw [show evalExpr (.inE (.get "building_type") (.litList explicitCategories)) p =
      some (.v (.bool (explicitCategories.contains bt))) from by
      rw [evalExpr]
      rw [show evalExpr (.get "building_type") p = some (.v (pget p "building_type")) from by
        rw [evalExpr]]
      rw [show evalExpr (.litList explicitCategories) p = some (.strs explicitCategories)
        from by rw [evalExpr]]
      rw [pget_building, hbt]
      rfl]
  have h2 : evalExpr (.neE (.sliceE (.get "building_type") 0 13)
      (.lit (.str "Medical Office"))) p =
      some (.v (.bool (!(strTake bt 13 == "Medical Office")))) := by
    rw [evalExpr, eval_slice_building p bt hbt]
    rw [show evalExpr (.lit (.str "Medical Office")) p = some (.v (.str "Medical Office"))
      from by rw [evalExpr]]
    rfl
  rw [evalExpr, evalAllList, h1]
  by_cases hc : explicitCategories.contains bt = true
  · rw [hc]
    rfl
  · rw [Bool.not_eq_true] at hc
    rw [hc]
    show evalAllList [.neE (.sliceE (.get "building_type") 0 13)
      (.lit (.str "Medical Office"))] p = _
    rw [evalAllList, h2]
    by_cases hm : (strTake bt 13 == "Medical Office") = true
    · rw [hm]; rfl
    · rw [Bool.not_eq_true] at hm
      rw [hm]; rfl

theorem eval_exact_cond (p : Properties) (bt ptype : String)
    (hbt : p.building_type = some (.str bt)) :
    evalExpr (.eqE (.get "building_type") (.lit (.str ptype))) p =
      some (.v (.bool (bt == ptype))) := by
  rw [evalExpr]
  rw [show evalExpr (.get "building_type") p = some (.v (pget p "building_type")) from by
    rw [evalExpr]]
  rw [show evalExpr (.lit (.str ptype)) p = some (.v (.str ptype)) from by rw [evalExpr]]
  rw [pget_building, hbt]
  rfl

/-- Semantics of one optional condition: an absent condition constrains
nothing. -/
def optTrue (p : Properties) (o : Option MapExpr) : Bool :=
  match o with
  | none => true
  | some e => evalTrue p e

theorem all_filterMap_four (o1 o2 o3 o4 : Option MapExpr) (p : Properties) :
    (([o1, o2, o3, o4].filterMap id).all (evalTrue p)) =
      (optTrue p o1 && optTrue p o2 && optTrue p o3 && optTrue p o4) := by
  cases o1 <;> cases o2 <;> cases o3 <;> cases o4 <;>
    simp [optTrue, List.filterMap, List.all_cons, Bool.and_assoc]

theorem evalFilter_four (o1 o2 o3 o4 : Option MapExpr) (p : Properties)
    (h1 : ∀ e, o1 = some e → ∃ b, evalExpr e p = some (.v (.bool b)))
    (h2 : ∀ e, o2 = some e → ∃ b, evalExpr e p = some (.v (.bool b)))
    (h3 : ∀ e, o3 = some e → ∃ b, evalExpr e p = some (.v (.bool b)))
    (h4 : ∀ e, o4 = some e → ∃ b, evalExpr e p = some (.v (.bool b))) :
    evalFilterExpr (if ([o1, o2, o3, o4].filterMap id).length > 1 then
      some (.allE ([o1, o2, o3, o4].filterMap id)) else ([o1, o2, o3, o4].filterMap id).head?)
      p = (optTrue p o1 && optTrue p o2 && optTrue p o3 && optTrue p o4) := by
  rw [evalFilterExpr_package _ _ ?hall, all_filterMap_four]
  case hall =>
    intro e he
    rw [List.mem_filterMap] at he
    obtain ⟨o, ho, hoe⟩ := he
    simp only [List.mem_cons, List.not_mem_nil, or_false] at ho
    rcases ho with ho | ho | ho | ho <;> subst ho
    · exact h1 e hoe
    · exact h2 e hoe
    · exact h3 e hoe
    · exact h4 e hoe

theorem optTrue_ownership (p : Properties) (own : String) :
    optTrue p (ownershipCondition own) = ownershipPass p own := by
  unfold ownershipCondition ownershipPass
  by_cases g : (own != "" && own != "all") = true
  · rw [if_pos g, if_pos g]
    exact evalTrue_of_bool p _ _ (eval_ownership_cond p own)
  · rw [if_neg g, if_neg g]
    rfl

theorem optTrue_longstreet (p : Properties) (long : Bool) :
    optTrue p (longstreetCondition long) = longPass p long := by
  unfold longstreetCondition longPass
  by_cases g : (long == false) = true
  · rw [if_pos g, if_pos g]
    exact evalTrue_of_bool p _ _ (eval_longstreet_cond p)
  · rw [if_neg g, if_neg g]
    rfl

theorem optTrue_property (p : Properties) (bt ptype : String)
    (hbt : p.building_type = some (.str bt)) :
    optTrue p (propertyCondition ptype) = ptypePassColl p ptype := by
  unfold propertyCondition ptypePassColl
  rw [hbt, jsOr_str_empty]
  by_cases g : (ptype != "" && ptype != "All") = true
  · rw [if_pos g, if_pos g]
    by_cases m1 : (ptype == "Medical Office") = true
    · rw [if_pos m1, if_pos m1]
      exact evalTrue_of_bool p _ _ (eval_mo_cond p bt hbt)
    · rw [if_neg m1, if_neg m1]
      by_cases m2 : (ptype == "Other") = true
      · rw [if_pos m2, if_pos m2]
        exact evalTrue_of_bool p _ _ (eval_other_cond p bt hbt)
      · rw [if_neg m2, if_neg m2]
        exact evalTrue_of_bool p _ _ (eval_exact_cond p bt ptype hbt)
  · rw [if_neg g, if_neg g]
    rfl

theorem optTrue_area (p : Properties) (s : String) (areas : List String)
    (hsa : p.service_area = some (.str s))
    (hne : areas ≠ []) (hlen : areas.length ≤ 5) :
    optTrue p (serviceAreaCondition areas) = areaPassColl p areas := by
  unfold serviceAreaCondition areaPassColl
  have hpos : 0 < areas.length := List.length_pos.mpr hne
  rw [show ALL_SERVICE_AREAS.length = 5 from rfl]
  by_cases h5 : areas.length = 5
  · rw [if_neg (by simp [h5]), if_neg (by simp [h5])]
    rfl
  · have hlt : areas.length < 5 := lt_of_le_of_ne hlen h5
    rw [if_pos (by simp [hpos, hlt]), if_pos (by simp [h5])]
    rw [hsa]
    calc evalTrue p (.inE (.get "service_area") (.litList areas))
        = areas.contains s := evalTrue_of_bool p _ _ (eval_area_cond p areas s hsa)
      _ = jsIncludesStr areas (.str s) := rfl

theorem evalFilter_build (p : Properties) (bt s own ptype : String) (areas : List String)
    (long : Bool)
    (hbt : p.building_type = some (.str bt))
    (hsa : p.service_area = some (.str s))
    (hne : areas ≠ []) (hlen : areas.length ≤ 5) :
    evalFilterExpr (buildPortfolioFilterExpression own ptype areas long) p =
      (ownershipPass p own && ptypePassColl p ptype && areaPassColl p areas &&
        longPass p long) := by
  rw [show buildPortfolioFilterExpression own ptype areas long =
    (if ([ownershipCondition own, propertyCondition ptype, serviceAreaCondition areas,
        longstreetCondition long].filterMap id).length > 1 then
      some (.allE ([ownershipCondition own, propertyCondition ptype,
        serviceAreaCondition areas, longstreetCondition long].filterMap id))
    else ([ownershipCondition own, propertyCondition ptype, serviceAreaCondition areas,
        longstreetCondition long].filterMap id).head?) from rfl]
  rw [evalFilter_four _ _ _ _ p ?h1 ?h2 ?h3 ?h4]
  · rw [optTrue_ownership, optTrue_property p bt ptype hbt,
      optTrue_area p s areas hsa hne hlen, optTrue_longstreet]
  case h1 =>
    intro e he
    unfold ownershipCondition at he
    by_cases g : (own != "" && own != "all") = true
    · rw [if_pos g] at he
      obtain rfl := Option.some.inj he
      exact ⟨_, eval_ownership_cond p own⟩
    · rw [if_neg g] at he
      exact absurd he (by simp)
  case h2 =>
    intro e he
    unfold propertyCondition at he
    by_cases g : (ptype != "" && ptype != "All") = true
    · rw [if_pos g] at he
      by_cases m1 : (ptype == "Medical Office") = true
      · rw [if_pos m1] at he
        obtain rfl := Option.some.inj he
        exact ⟨_, eval_mo_cond p bt hbt⟩
      · rw [if_neg m1] at he
        by_cases m2 : (ptype == "Other") = true
        · rw [if_pos m2] at he
          obtain rfl := Option.some.inj he
          exact ⟨_, eval_other_cond p bt hbt⟩
        · rw [if_neg m2] at he
          obtain rfl := Option.some.inj he
          exact ⟨_, eval_exact_cond p bt ptype hbt⟩
    · rw [if_neg g] at he
      exact absurd he (by simp)
  case h3 =>
    intro e he
    unfold serviceAreaCondition at he
    by_cases g : (areas.length > 0 && areas.length < ALL_SERVICE_AREAS.length) = true
    · rw [if_pos g] at he
      obtain rfl := Option.some.inj he
      exact ⟨_, eval_area_cond p areas s hsa⟩
    · rw [if_neg g] at he
      exact absurd he (by simp)
  case h4 =>
    intro e he
    unfold longstreetCondition at he
    by_cases g : (long == false) = true
    · rw [if_pos g] at he
      obtain rfl := Option.some.inj he
      exact ⟨_, eval_longstreet_cond p⟩
    · rw [if_neg g] at he
      exact absurd he (by simp)

/-! ## Agreement facts between the implementations -/

theorem strTake13_ne_MO (s : String) : (strTake s 13 == "Medical Office") = false := by
  apply beq_eq_false_iff_ne.mpr
  intro h
  have hlen : (strTake s 13).data.length = ("Medical Office" : String).data.length := by rw [h]
  rw [show (strTake s 13).data = s.data.take 13 from rfl] at hlen
  rw [show ("Medical Office" : String).data.length = 14 from rfl] at hlen
  have := List.length_take_le 13 s.data
  omega

theorem ptypePass_agree (p : Properties) (bt ptype : String)
    (hbt : p.building_type = some (.str bt))
    (hmo : ¬(jsStartsWith bt "Medical Office" = true ∧
      (ptype = "Medical Office" ∨ ptype = "Other"))) :
    ptypePassStats p ptype = ptypePassColl p ptype := by
  unfold ptypePassStats ptypePassColl
  rw [hbt, jsOr_str_empty]
  by_cases g : (ptype != "" && ptype != "All") = true
  · rw [if_pos g, if_pos g]
    by_cases m1 : (ptype == "Medical Office") = true
    · have hstart : jsStartsWith bt "Medical Office" = false := by
        cases hS : jsStartsWith bt "Medical Office" with
        | false => rfl
        | true => exact absurd ⟨hS, Or.inl (beq_iff_eq.mp m1)⟩ hmo
      rw [if_pos m1, if_pos m1]
      rw [show jsToString (.str bt) = bt from rfl, hstart, strTake13_ne_MO]
    · rw [if_neg m1, if_neg m1]
      by_cases m2 : (ptype == "Other") = true
      · have hstart : jsStartsWith bt "Medical Office" = false := by
          cases hS : jsStartsWith bt "Medical Office" with
          | false => rfl
          | true => exact absurd ⟨hS, Or.inr (beq_iff_eq.mp m2)⟩ hmo
        rw [if_pos m2, if_pos m2]
        rw [show jsToString (.str bt) = bt from rfl, hstart, strTake13_ne_MO]
        rfl
      · rw [if_neg m2, if_neg m2]
        rfl
  · rw [if_neg g, if_neg g]

theorem areas_length_le (areas : List String) (hnd : areas.Nodup)
    (hsub : ∀ a ∈ areas, a ∈ ALL_SERVICE_AREAS) : areas.length ≤ 5 := by
  have h1 : areas.toFinset.card = areas.length := List.toFinset_card_of_nodup hnd
  have h2 : areas.toFinset ⊆ ALL_SERVICE_AREAS.toFinset := by
    intro a ha
    exact List.mem_toFinset.mpr (hsub a (List.mem_toFinset.mp ha))
  have h3 := Finset.card_le_card h2
  rw [h1] at h3
  have h4 : ALL_SERVICE_AREAS.toFinset.card = 5 := by decide
  rw [h4] at h3
  exact h3

theorem areas_full_of_length_five (areas : List String) (hnd : areas.Nodup)
    (hsub : ∀ a ∈ areas, a ∈ ALL_SERVICE_AREAS) (h5 : areas.length = 5) :
    ∀ a ∈ ALL_SERVICE_AREAS, a ∈ areas := by
  have hsubF : areas.toFinset ⊆ ALL_SERVICE_AREAS.toFinset := by
    intro a ha
    exact List.mem_toFinset.mpr (hsub a (List.mem_toFinset.mp ha))
  have hcard : ALL_SERVICE_AREAS.toFinset.card ≤ areas.toFinset.card := by
    rw [List.toFinset_card_of_nodup hnd, h5]
    decide
  have heq := Finset.eq_of_subset_of_card_le hsubF hcard
  intro a ha
  exact List.mem_toFinset.mp (heq ▸ List.mem_toFinset.mpr ha)

theorem getServiceArea_of_sa (p : Properties) (s : String)
    (hsa : p.service_area = some (.str s)) (hsne : s ≠ "") :
    getServiceArea (some p) = .str s := by
  show jsOr p.service_area (jsOr p.label (.str "")) = .str s
  rw [hsa]
  simp [jsOr, truthy, hsne]

theorem areaPass_agree (p : Properties) (s : String) (areas : List String)
    (hsa : p.service_area = some (.str s)) (hs : s ∈ ALL_SERVICE_AREAS)
    (hnd : areas.Nodup) (hne : areas ≠ [])
    (hsub : ∀ a ∈ areas, a ∈ ALL_SERVICE_AREAS) :
    areaPassStats p areas = areaPassColl p areas := by
  have hsne : s ≠ "" := by
    intro h
    subst h
    revert hs
    decide
  unfold areaPassStats areaPassColl
  rw [getServiceArea_of_sa p s hsa hsne, hsa]
  rw [if_pos (by simp [hne])]
  rw [show ALL_SERVICE_AREAS.length = 5 from rfl]
  by_cases h5 : areas.length = 5
  · rw [if_neg (by simp [h5])]
    have hmem : s ∈ areas := areas_full_of_length_five areas hnd hsub h5 s hs
    show jsIncludesStr areas (.str s) = true
    simpa [jsIncludesStr] using hmem
  · rw [if_pos (by simp [h5])]
    rfl

/-! ## Membership characterizations -/

theorem jsStrictEq_str_iff (v : JSVal) (a : String) :
    jsStrictEq v (.str a) = true ↔ v = .str a := by
  cases v with
  | str s =>
    constructor
    · intro h
      rw [show jsStrictEq (.str s) (.str a) = (s == a) from rfl] at h
      rw [beq_iff_eq.mp h]
    · intro h
      injection h with h2
      subst h2
      simp [jsStrictEq]
  | num n => cases n <;> simp [jsStrictEq]
  | bool b => simp [jsStrictEq]
  | null => simp [jsStrictEq]

theorem jsIncludesStr_iff (arr : List String) (v : JSVal) :
    jsIncludesStr arr v = true ↔ ∃ s, v = .str s ∧ s ∈ arr := by
  cases v with
  | str s =>
    rw [show jsIncludesStr arr (.str s) = arr.contains s from rfl]
    constructor
    · intro h
      exact ⟨s, rfl, List.elem_iff.mp h⟩
    · intro ⟨t, ht, hmem⟩
      cases ht
      exact List.elem_iff.mpr hmem
  | num n =>
    simp only [jsIncludesStr]
    constructor
    · intro h; cases h
    · intro ⟨s, hs, _⟩; cases hs
  | bool b =>
    simp only [jsIncludesStr]
    constructor
    · intro h; cases h
    · intro ⟨s, hs, _⟩; cases hs
  | null =>
    simp only [jsIncludesStr]
    constructor
    · intro h; cases h
    · intro ⟨s, hs, _⟩; cases hs

theorem mem_areaFeatures_iff (fs : List Feature) (a : String) (f : Feature) :
    f ∈ areaFeatures fs a ↔ f ∈ fs ∧ getServiceArea f = .str a := by
  unfold areaFeatures
  rw [List.mem_filter, jsStrictEq_str_iff]

theorem filterFeature_area (f : Feature) (own ptype : String) (areas : List String)
    (long : Bool) (hne : areas ≠ [])
    (h : filterFeature f own ptype areas long = true) :
    ∃ a ∈ areas, getServiceArea f = .str a := by
  cases f with
  | none => exact absurd h (by simp [filterFeature])
  | some p =>
    rw [filterFeature_eq_conj] at h
    have harea : areaPassStats p areas = true := by
      cases h1 : areaPassStats p areas with
      | true => rfl
      | false => rw [h1] at h; simp at h
    unfold areaPassStats at harea
    rw [if_pos (by simp [hne])] at harea
    obtain ⟨s, hv, hmem⟩ := (jsIncludesStr_iff areas (getServiceArea (some p))).mp harea
    exact ⟨s, hmem, hv⟩

theorem filtered_area_exists (portfolio : List Feature) (own ptype : String)
    (areas : List String) (long : Bool) (hne : areas ≠ []) :
    ∀ f ∈ filteredFeatures portfolio own ptype areas long,
      ∃ a ∈ areas, getServiceArea f = .str a := by
  intro f hf
  unfold filteredFeatures at hf
  rw [List.mem_filter] at hf
  exact filterFeature_area f own ptype areas long hne hf.2

/-! ## Partition of the grouped acreage across service areas -/

theorem filterMap_filter_keyLocal (fs : List Feature) (c : Feature → Bool) (k : JSVal)
    (h : ∀ f ∈ fs, ∀ e, groupedEntry (propsOf f) = some e → e.1 = k → c f = true) :
    ((fs.filter c).filterMap (fun f => groupedEntry (propsOf f))).filter
        (fun e => e.1 = k) =
      (fs.filterMap (fun f => groupedEntry (propsOf f))).filter (fun e => e.1 = k) := by
  induction fs with
  | nil => rfl
  | cons f fs ih =>
    have ihr := ih (fun g hg e he hk => h g (List.mem_cons_of_mem f hg) e he hk)
    rw [List.filter_cons, List.filterMap_cons]
    cases hc : c f with
    | true =>
      rw [if_pos rfl, List.filterMap_cons]
      cases he : groupedEntry (propsOf f) with
      | none => rw [ihr]
      | some e => rw [List.filter_cons, List.filter_cons, ihr]
    | false =>
      rw [if_neg (by simp)]
      cases he : groupedEntry (propsOf f) with
      | none => rw [ihr]
      | some e =>
        rw [List.filter_cons]
        have hek : ¬ e.1 = k := by
          intro hk
          rw [h f (List.mem_cons_self f fs) e he hk] at hc
          cases hc
        rw [if_neg (by simpa using hek), ihr]

theorem specMaxAcres_area_eq (fs : List Feature) (a : String) (k : JSVal)
    (h : ∀ f ∈ fs, ∀ e, groupedEntry (propsOf f) = some e → e.1 = k →
      getServiceArea f = .str a) :
    specMaxAcres (areaFeatures fs a) k = specMaxAcres fs k := by
  unfold specMaxAcres acresPairs areaFeatures
  rw [filterMap_filter_keyLocal fs _ k (fun f hf e he hk => by
    rw [jsStrictEq_str_iff]
    exact h f hf e he hk)]

theorem mem_acresKeys_iff (fs : List Feature) (k : JSVal) :
    k ∈ acresKeys fs ↔ ∃ f ∈ fs, ∃ e, groupedEntry (propsOf f) = some e ∧ e.1 = k := by
  unfold acresKeys acresPairs
  rw [List.mem_map]
  constructor
  · intro ⟨e, he, hk⟩
    rw [List.mem_filterMap] at he
    obtain ⟨f, hf, hfe⟩ := he
    exact ⟨f, hf, e, hfe, hk⟩
  · intro ⟨f, hf, e, hfe, hk⟩
    exact ⟨e, List.mem_filterMap.mpr ⟨f, hf, hfe⟩, hk⟩

theorem acresKeys_biUnion (fs : List Feature) (areas : List String)
    (hall : ∀ f ∈ fs, ∃ a ∈ areas, getServiceArea f = .str a) :
    (acresKeys fs).toFinset =
      areas.toFinset.biUnion (fun a => (acresKeys (areaFeatures fs a)).toFinset) := by
  apply Finset.ext
  intro k
  rw [List.mem_toFinset, Finset.mem_biUnion, mem_acresKeys_iff]
  constructor
  · intro ⟨f, hf, e, hfe, hk⟩
    obtain ⟨a, ha, hsa⟩ := hall f hf
    refine ⟨a, List.mem_toFinset.mpr ha, List.mem_toFinset.mpr ?_⟩
    rw [mem_acresKeys_iff]
    exact ⟨f, (mem_areaFeatures_iff fs a f).mpr ⟨hf, hsa⟩, e, hfe, hk⟩
  · intro ⟨a, _, hk⟩
    rw [List.mem_toFinset, mem_acresKeys_iff] at hk
    obtain ⟨f, hf, e, hfe, hke⟩ := hk
    exact ⟨f, ((mem_areaFeatures_iff fs a f).mp hf).1, e, hfe, hke⟩

theorem groupedAcresSpec_partition (fs : List Feature) (areas : List String)
    (hnd : areas.Nodup)
    (hall : ∀ f ∈ fs, ∃ a ∈ areas, getServiceArea f = .str a)
    (hloc : ∀ f ∈ fs, ∀ g ∈ fs, ∀ ef eg, groupedEntry (propsOf f) = some ef →
      groupedEntry (propsOf g) = some eg → ef.1 = eg.1 →
      getServiceArea f = getServiceArea g) :
    groupedAcresSpec fs =
      (areas.map (fun a => groupedAcresSpec (areaFeatures fs a))).sum := by
  unfold groupedAcresSpec
  rw [acresKeys_biUnion fs areas hall]
  rw [Finset.sum_biUnion ?hdisj]
  · rw [← List.sum_toFinset _ hnd]
    apply Finset.sum_congr rfl
    intro a _
    apply Finset.sum_congr rfl
    intro k hk
    rw [List.mem_toFinset, mem_acresKeys_iff] at hk
    obtain ⟨g, hg, eg, hge, hgk⟩ := hk
    have hga : getServiceArea g = .str a := ((mem_areaFeatures_iff fs a g).mp hg).2
    rw [specMaxAcres_area_eq fs a k (fun f hf ef hfe hfk => by
      rw [hloc f hf g ((mem_areaFeatures_iff fs a g).mp hg).1 ef eg hfe hge
        (by rw [hfk, hgk]), hga])]
  case hdisj =>
    intro a ha b hb hab
    show Disjoint ((acresKeys (areaFeatures fs a)).toFinset)
      ((acresKeys (areaFeatures fs b)).toFinset)
    rw [Finset.disjoint_left]
    intro k hka hkb
    rw [List.mem_toFinset, mem_acresKeys_iff] at hka hkb
    obtain ⟨f, hf, ef, hfe, hfk⟩ := hka
    obtain ⟨g, hg, eg, hge, hgk⟩ := hkb
    have hfa : getServiceArea f = .str a := ((mem_areaFeatures_iff fs a f).mp hf).2
    have hgb : getServiceArea g = .str b := ((mem_areaFeatures_iff fs b g).mp hg).2
    have := hloc f ((mem_areaFeatures_iff fs a f).mp hf).1
      g ((mem_areaFeatures_iff fs b g).mp hg).1 ef eg hfe hge (by rw [hfk, hgk])
    rw [hfa, hgb] at this
    exact hab (by injection this)

/-! ## Canonical forms of the square-footage aggregation -/

/-- The square footage a single feature contributes to a total. -/
def sfWeight (f : Feature) : ℚ :=
  if isFiniteNum (sfOf f) then finVal (sfOf f) else 0

theorem headlineTotalSf_eq_sum (fs : List Feature) :
    headlineTotalSf fs = (fs.map sfWeight).sum := by
  unfold headlineTotalSf
  rw [foldl_add_init _ finVal 0, zero_add, sum_over_filter, List.map_map]
  rfl

theorem sizeRowFor_totalSf_eq (fs : List Feature) (area : String) :
    (sizeRowFor fs area).totalSf = ((areaFeatures fs area).map sfWeight).sum := by
  unfold sizeRowFor
  show (((areaFeatures fs area).map sfOf).filter isFiniteNum).foldl
    (fun sum v => sum + finVal v) 0 = _
  rw [foldl_add_init _ finVal 0, zero_add, sum_over_filter, List.map_map]
  rfl

theorem sizeRowFor_countWithSf_eq (fs : List Feature) (area : String) :
    (sizeRowFor fs area).countWithSf =
      ((areaFeatures fs area).filter (fun f => isFiniteNum (sfOf f))).length := by
  unfold sizeRowFor
  show (((areaFeatures fs area).map sfOf).filter isFiniteNum).length = _
  rw [List.filter_map, List.length_map]
  rfl

/-! ## Concrete features used by counterexamples and witnesses -/

/-- A feature whose building type extends the "Medical Office" prefix. -/
def mobProps : Properties :=
  { building_type := some (.str "Medical Office Building"),
    service_area := some (.str "Habersham") }

/-- A feature whose building type is exactly "Medical Office". -/
def moProps : Properties :=
  { building_type := some (.str "Medical Office"), service_area := some (.str "Habersham") }

/-- A well-formed owned hospital in Habersham. -/
def wProps : Properties :=
  { ownership_type := some (.str "Owned"), building_type := some (.str "Hospital"),
    service_area := some (.str "Habersham") }

/-- A feature whose service area lies outside the 5-member enumeration. -/
def zebraProps : Properties := { service_area := some (.str "Zebra") }

/-- A feature with an empty-string service area and a label. -/
def emptySaProps : Properties :=
  { service_area := some (.str ""), label := some (.str "Habersham") }

/-- A feature lacking service_area but carrying a label. -/
def labelOnlyProps : Properties := { label := some (.str "Habersham") }

/-- Two parcels sharing the empty-string grouping key. -/
def emptyGroup10 : Feature :=
  some
    { service_area := some (.str "Habersham"), land_size := some (.num (.fin 10)),
      grouping := some (.str "") }

/-- Second parcel of the empty-string grouping key pair. -/
def emptyGroup15 : Feature :=
  some
    { service_area := some (.str "Habersham"), land_size := some (.num (.fin 15)),
      grouping := some (.str "") }

/-- A Habersham land parcel in cross-area group "G". -/
def crossGroupHab : Feature :=
  some
    { service_area := some (.str "Habersham"), building_type := some (.str "Land"),
      land_size := some (.num (.fin 10)), grouping := some (.str "G") }

/-- A Lumpkin land parcel in cross-area group "G". -/
def crossGroupLum : Feature :=
  some
    { service_area := some (.str "Lumpkin"), building_type := some (.str "Land"),
      land_size := some (.num (.fin 15)), grouping := some (.str "G") }

/-! ## Claim theorems -/

/-- C1, counterexample: the claim that the three filter implementations
agree on every feature and selection is false.  With the selection
(ownership "all", property type "Medical Office", all five areas,
longstreet shown) and a feature whose building type starts with
"Medical Office", the stats-path predicate includes the feature while the
materialized-collection filter excludes it. -/
theorem filter_implementations_disagree :
    filterFeature (some mobProps) "all" "Medical Office" ALL_SERVICE_AREAS true = true ∧
    collectionPred "all" "Medical Office" ALL_SERVICE_AREAS true (some mobProps) = false := by
  decide

/-- C1, amended: the three filter implementations — the stats-path
predicate, the materialized-collection filter, and the semantics of the
declarative filter expression — agree on every feature whose
`service_area` is a string belonging to the 5-member enumeration and
whose `building_type` is a string, for every selection whose service-area
list is a non-empty duplicate-free subset of the enumeration, except when
the building type starts with "Medical Office" while the property-type
selection is "Medical Office" or "Other" (where the slice-13 comparison
of the collection filter and the expression diverges from the
`startsWith` of the stats path), and except for features read through the
stats path's label fallback. -/
theorem filter_implementations_agree_on_wellformed (p : Properties)
    (s bt own ptype : String) (areas : List String) (long : Bool)
    (hsa : p.service_area = some (.str s)) (hs : s ∈ ALL_SERVICE_AREAS)
    (hbt : p.building_type = some (.str bt))
    (hmo : ¬(jsStartsWith bt "Medical Office" = true ∧
      (ptype = "Medical Office" ∨ ptype = "Other")))
    (hnd : areas.Nodup) (hne : areas ≠ [])
    (hsub : ∀ a ∈ areas, a ∈ ALL_SERVICE_AREAS) :
    filterFeature (some p) own ptype areas long =
      collectionPred own ptype areas long (some p) ∧
    collectionPred own ptype areas long (some p) =
      evalFilterExpr (buildPortfolioFilterExpression own ptype areas long) p := by
  constructor
  · rw [filterFeature_eq_conj, collectionPred_eq_conj]
    show _ = (ownershipPass p own && ptypePassColl p ptype && areaPassColl p areas &&
      longPass p long)
    rw [ptypePass_agree p bt ptype hbt hmo, areaPass_agree p s areas hsa hs hnd hne hsub]
  · rw [collectionPred_eq_conj,
      evalFilter_build p bt s own ptype areas long hbt hsa hne
        (areas_length_le areas hnd hsub)]
    rfl

theorem filter_implementations_agree_on_wellformed_witness :
    filterFeature (some wProps) "Owned" "Hospital" ["Habersham", "Lumpkin"] false =
      collectionPred "Owned" "Hospital" ["Habersham", "Lumpkin"] false (some wProps) ∧
    collectionPred "Owned" "Hospital" ["Habersham", "Lumpkin"] false (some wProps) =
      evalFilterExpr (buildPortfolioFilterExpression "Owned" "Hospital"
        ["Habersham", "Lumpkin"] false) wProps :=
  filter_implementations_agree_on_wellformed wProps "Habersham" "Hospital" "Owned" "Hospital"
    ["Habersham", "Lumpkin"] false rfl (by decide) rfl (by decide) (by decide) (by decide)
    (by decide)

/-- C2, code bug: the materialized-collection filter compares
`slice(0, 13)` of the building type — 13 characters — against the
14-character literal "Medical Office", a comparison that can never hold.
At the failing input (building_type exactly "Medical Office"), the
stats-path predicate includes the feature under the "Medical Office"
selection while the collection filter excludes it, and under the "Other"
selection the collection filter fails to exclude it while the stats path
does.  This contradicts the claim, the spec, and the builder's own
"Prefix match" comment; the stats path implements the documented
semantics. -/
theorem medical_office_slice_bug :
    filterFeature (some moProps) "all" "Medical Office" ALL_SERVICE_AREAS true = true ∧
    collectionPred "all" "Medical Office" ALL_SERVICE_AREAS true (some moProps) = false ∧
    filterFeature (some moProps) "all" "Other" ALL_SERVICE_AREAS true = false ∧
    collectionPred "all" "Other" ALL_SERVICE_AREAS true (some moProps) = true ∧
    evalFilterExpr (buildPortfolioFilterExpression "all" "Medical Office" ALL_SERVICE_AREAS
      true) moProps = false := by
  decide

/-- C3, counterexample: the claim that the no-op selection passes every
feature through the predicate is false for the stats-path predicate: a
feature whose service area lies outside the enumeration is rejected,
because `filterFeature` runs the membership check whenever the selection
is non-empty, even when it equals the full enumeration. -/
theorem noop_selection_not_all_pass :
    filterFeature (some zebraProps) "all" "All" ALL_SERVICE_AREAS true = false := by
  decide

/-- C3, amended: the no-op selection (ownership "all", property type
"All", all five areas, longstreet shown) passes every feature through the
materialized-collection filter, which skips the membership check when all
five areas are selected; the stats-path predicate passes exactly the
features whose property bag exists and whose derived service area lies in
the enumeration — it does not skip the membership check. -/
theorem noop_selection_amended :
    (∀ f : Feature, collectionPred "all" "All" ALL_SERVICE_AREAS true f = true) ∧
    (∀ (p : Properties) (s : String), getServiceArea (some p) = .str s →
      s ∈ ALL_SERVICE_AREAS →
      filterFeature (some p) "all" "All" ALL_SERVICE_AREAS true = true) := by
  constructor
  · intro f
    rw [collectionPred_eq_conj]
    rw [show ownershipPass (propsOf f) "all" = true from by
      unfold ownershipPass; rw [if_neg (by decide)]]
    rw [show ptypePassColl (propsOf f) "All" = true from by
      unfold ptypePassColl; rw [if_neg (by decide)]]
    rw [show areaPassColl (propsOf f) ALL_SERVICE_AREAS = true from by
      unfold areaPassColl; rw [if_neg (by decide)]]
    rw [show longPass (propsOf f) true = true from by
      unfold longPass; rw [if_neg (by decide)]]
    rfl
  · intro p s hgsa hs
    rw [filterFeature_eq_conj]
    rw [show ownershipPass p "all" = true from by
      unfold ownershipPass; rw [if_neg (by decide)]]
    rw [show ptypePassStats p "All" = true from by
      unfold ptypePassStats; rw [if_neg (by decide)]]
    rw [show longPass p true = true from by
      unfold longPass; rw [if_neg (by decide)]]
    rw [show areaPassStats p ALL_SERVICE_AREAS = true from by
      unfold areaPassStats
      rw [if_pos (by decide), hgsa]
      show jsIncludesStr ALL_SERVICE_AREAS (.str s) = true
      rw [jsIncludesStr_iff]
      exact ⟨s, rfl, hs⟩]
    rfl

theorem noop_selection_amended_witness :
    collectionPred "all" "All" ALL_SERVICE_AREAS true (some zebraProps) = true ∧
    filterFeature (some wProps) "all" "All" ALL_SERVICE_AREAS true = true :=
  ⟨noop_selection_amended.1 (some zebraProps),
   noop_selection_amended.2 wProps "Habersham" rfl (by decide)⟩

/-- C4, counterexample: the claim defines "standalone" as groupingKey
absent or "None", but the code treats every falsy grouping as standalone.
Two features sharing the present, non-"None" grouping key "" and
acreages 10 and 15 contribute 25 to the code's totalAcres (summed as
standalone parcels), not the 15 the claim's formula mandates. -/
theorem grouped_acres_claim_counterexample :
    acresTotalFor [emptyGroup10, emptyGroup15] "Habersham" = 25 ∧
    claimTotalAcres [emptyGroup10, emptyGroup15] "Habersham" = 15 := by
  constructor
  · rw [show acresTotalFor [emptyGroup10, emptyGroup15] "Habersham" =
      ((0 : ℚ) + 10 + 15) + 0 from rfl]
    norm_num
  · rw [show claimTotalAcres [emptyGroup10, emptyGroup15] "Habersham" =
      ((0 : ℚ) + (0 + 0)) + (max 10 15 + 0) from rfl]
    norm_num

/-- C4, amended: for every service area's feature set, totalAcres equals
the sum of numeric finite acreage over standalone features — features
whose grouping attribute is falsy (absent, empty string, zero, etc.) or
exactly "None" — plus, for each distinct truthy non-"None" grouping key,
the maximum numeric finite acreage among the features sharing that key,
counted once per key. -/
theorem grouped_acres_amended (features : List Feature) (area : String) :
    acresTotalFor features area =
      ((areaFeatures features area).map standaloneWeight).sum +
        ∑ k ∈ (acresKeys (areaFeatures features area)).toFinset,
          ((specMaxAcres (areaFeatures features area) k).getD 0) := by
  show standaloneAcres (areaFeatures features area) +
    groupedAcres (areaFeatures features area) = _
  rw [standaloneAcres_eq_sum, groupedAcres_eq_spec]
  rfl

theorem avg_if_flip (n : ℕ) (q : ℚ) :
    (if n > 0 then some q else none) = (if n = 0 then none else some q) := by
  cases n <;> simp

/-- C5: for every service area's feature set, averageSquareFootage is
totalSquareFootage divided by the number of features with numeric finite
squareFootage, and is null (never 0/0) when that number is zero;
non-numeric, missing, NaN, or infinite values contribute nothing to the
sum and the denominator, while the count aggregate still counts every
feature of the area. -/
theorem average_square_footage_policy (features : List Feature) (area : String) :
    (sizeRowFor features area).avgSf =
      (if (sizeRowFor features area).countWithSf = 0 then none
       else some ((sizeRowFor features area).totalSf /
         ((sizeRowFor features area).countWithSf : ℚ))) ∧
    (sizeRowFor features area).countWithSf =
      ((areaFeatures features area).filter (fun f => isFiniteNum (sfOf f))).length ∧
    (sizeRowFor features area).totalSf = ((areaFeatures features area).map sfWeight).sum ∧
    countFor features area = (areaFeatures features area).length := by
  refine ⟨?_, sizeRowFor_countWithSf_eq features area, sizeRowFor_totalSf_eq features area,
    countFor_eq_length features area⟩
  exact avg_if_flip (((areaFeatures features area).map sfOf).filter isFiniteNum).length
    ((((areaFeatures features area).map sfOf).filter isFiniteNum).foldl
      (fun sum v => sum + finVal v) 0 /
      ((((areaFeatures features area).map sfOf).filter isFiniteNum).length : ℚ))

/-- C6: a synthesized "Total" row is produced iff more than one service
area is selected; when present it is unique and positioned after all
per-area rows, its value is the sum of the per-area rows' values (for
counts, total square footage, and total acreage), and the average table
never gets a total row. -/
theorem total_row_synthesis (features : List Feature) (areas : List String) :
    (1 < areas.length →
      renderRows (countRows features areas) (decide (1 < areas.length)) =
        (countRows features areas).map (fun r => ⟨r.area, r.count, false⟩) ++
          [⟨"Total", ((countRows features areas).map (fun r => r.count)).sum, true⟩] ∧
      renderSizeTotalRows (sizeRows features areas) (decide (1 < areas.length)) =
        (sizeRows features areas).map (fun r => ⟨r.area, r.totalSf, false⟩) ++
          [⟨"Total", ((sizeRows features areas).map (fun r => r.totalSf)).sum, true⟩] ∧
      renderAcresRows (acresRows features areas) (decide (1 < areas.length)) =
        (acresRows features areas).map (fun r => ⟨r.area, r.totalAcres, false⟩) ++
          [⟨"Total", ((acresRows features areas).map (fun r => r.totalAcres)).sum, true⟩]) ∧
    (areas.length ≤ 1 →
      (∀ rc ∈ renderRows (countRows features areas) (decide (1 < areas.length)),
        rc.isTotal = false) ∧
      (∀ rc ∈ renderSizeTotalRows (sizeRows features areas) (decide (1 < areas.length)),
        rc.isTotal = false) ∧
      (∀ rc ∈ renderAcresRows (acresRows features areas) (decide (1 < areas.length)),
        rc.isTotal = false)) ∧
    (∀ rc ∈ renderSizeAvgRows (sizeRows features areas), rc.isTotal = false) := by
  refine ⟨?_, ?_, ?_⟩
  · intro h
    have hd : decide (1 < areas.length) = true := decide_eq_true h
    have hne : areas ≠ [] := by
      intro hh
      rw [hh] at h
      simp at h
    rw [hd]
    refine ⟨?_, ?_, ?_⟩
    · unfold renderRows
      rw [if_neg (by simp [countRows, hne]), if_pos rfl,
        foldl_add_init_nat (countRows features areas) (fun r => r.count) 0, zero_add]
    · unfold renderSizeTotalRows
      rw [if_neg (by simp [sizeRows, hne]), if_pos rfl,
        foldl_add_init (sizeRows features areas) (fun r => r.totalSf) 0, zero_add]
    · unfold renderAcresRows
      rw [if_neg (by simp [acresRows, hne]), if_pos rfl,
        foldl_add_init (acresRows features areas) (fun r => r.totalAcres) 0, zero_add]
  · intro h
    have hd : decide (1 < areas.length) = false := decide_eq_false (by omega)
    rw [hd]
    refine ⟨?_, ?_, ?_⟩
    · intro rc hrc
      unfold renderRows at hrc
      by_cases he : (countRows features areas).isEmpty = true
      · rw [if_pos he] at hrc
        cases hrc
      · rw [if_neg he] at hrc
        simp only [if_neg (Bool.false_ne_true), List.append_nil, List.mem_map] at hrc
        obtain ⟨r, _, hr⟩ := hrc
        rw [← hr]
    · intro rc hrc
      unfold renderSizeTotalRows at hrc
      by_cases he : (sizeRows features areas).isEmpty = true
      · rw [if_pos he] at hrc
        cases hrc
      · rw [if_neg he] at hrc
        simp only [if_neg (Bool.false_ne_true), List.append_nil, List.mem_map] at hrc
        obtain ⟨r, _, hr⟩ := hrc
        rw [← hr]
    · intro rc hrc
      unfold renderAcresRows at hrc
      by_cases he : (acresRows features areas).isEmpty = true
      · rw [if_pos he] at hrc
        cases hrc
      · rw [if_neg he] at hrc
        simp only [if_neg (Bool.false_ne_true), List.append_nil, List.mem_map] at hrc
        obtain ⟨r, _, hr⟩ := hrc
        rw [← hr]
  · intro rc hrc
    unfold renderSizeAvgRows at hrc
    by_cases he : (sizeRows features areas).isEmpty = true
    · rw [if_pos he] at hrc
      cases hrc
    · rw [if_neg he] at hrc
      rw [List.mem_map] at hrc
      obtain ⟨r, _, hr⟩ := hrc
      rw [← hr]

theorem total_row_synthesis_witness :
    renderRows (countRows [] ["Habersham", "Lumpkin"]) (decide (1 < (2 : ℕ))) =
      (countRows [] ["Habersham", "Lumpkin"]).map (fun r => ⟨r.area, r.count, false⟩) ++
        [⟨"Total", ((countRows [] ["Habersham", "Lumpkin"]).map (fun r => r.count)).sum,
          true⟩] ∧
    renderSizeTotalRows (sizeRows [] ["Habersham", "Lumpkin"]) (decide (1 < (2 : ℕ))) =
      (sizeRows [] ["Habersham", "Lumpkin"]).map (fun r => ⟨r.area, r.totalSf, false⟩) ++
        [⟨"Total", ((sizeRows [] ["Habersham", "Lumpkin"]).map (fun r => r.totalSf)).sum,
          true⟩] ∧
    renderAcresRows (acresRows [] ["Habersham", "Lumpkin"]) (decide (1 < (2 : ℕ))) =
      (acresRows [] ["Habersham", "Lumpkin"]).map (fun r => ⟨r.area, r.totalAcres, false⟩) ++
        [⟨"Total", ((acresRows [] ["Habersham", "Lumpkin"]).map
          (fun r => r.totalAcres)).sum, true⟩] :=
  (total_row_synthesis [] ["Habersham", "Lumpkin"]).1 (by decide)

/-- C7: after every service-area filter update event, the selected
service-area list is non-empty: an empty selection read from the UI is
replaced at the setter boundary by the full 5-member enumeration;
consequently non-emptiness is an invariant of the filter state across the
update handler. -/
theorem service_area_guard_invariant (currentSelected : List String)
    (componentValue : Option (List String)) :
    updateSelectedServiceAreas currentSelected componentValue ≠ [] ∧
    (currentSelected = [] → (componentValue = none ∨ componentValue = some []) →
      updateSelectedServiceAreas currentSelected componentValue = ALL_SERVICE_AREAS) := by
  constructor
  · unfold updateSelectedServiceAreas
    set selected := (if currentSelected.isEmpty then
      match componentValue with
      | some v => v
      | none => currentSelected
      else currentSelected) with hsel
    by_cases hs : selected.isEmpty = true
    · rw [if_pos hs]
      decide
    · rw [if_neg hs]
      intro hh
      exact hs (by rw [hh]; rfl)
  · intro hcur hval
    subst hcur
    rcases hval with hv | hv <;> rw [hv] <;> rfl

theorem service_area_guard_invariant_witness :
    updateSelectedServiceAreas [] none = ALL_SERVICE_AREAS ∧
    updateSelectedServiceAreas [] (some []) ≠ [] :=
  ⟨(service_area_guard_invariant [] none).2 rfl (Or.inl rfl),
   (service_area_guard_invariant [] (some [])).1⟩

/-- C8: the engine is total over malformed feature data: a null or
property-less feature is rejected by the predicate (and read as the empty
bag by the collection filter) rather than raising; a missing attribute
fails equality-based filters; non-numeric, missing, NaN, or infinite
square footage and acreage values contribute nothing to any numeric
aggregate while the feature still counts in the count aggregate; and the
empty feature set yields zero-valued rows, not an error. -/
theorem malformed_inputs_graceful :
    (∀ (own ptype : String) (areas : List String) (long : Bool),
      filterFeature none own ptype areas long = false ∧
      collectionPred own ptype areas long none =
        collectionPred own ptype areas long (some emptyProps)) ∧
    (∀ (p : Properties) (own ptype : String) (areas : List String) (long : Bool),
      p.ownership_type = none → own ≠ "" → own ≠ "all" →
      filterFeature (some p) own ptype areas long = false) ∧
    (∀ (f : Feature) (fs : List Feature) (area : String),
      jsStrictEq (getServiceArea f) (.str area) = true →
      isFiniteNum (sfOf f) = false →
      (sizeRowFor (f :: fs) area).totalSf = (sizeRowFor fs area).totalSf ∧
      (sizeRowFor (f :: fs) area).countWithSf = (sizeRowFor fs area).countWithSf ∧
      (sizeRowFor (f :: fs) area).avgSf = (sizeRowFor fs area).avgSf ∧
      countFor (f :: fs) area = countFor fs area + 1) ∧
    (∀ (f : Feature) (fs : List Feature),
      isFiniteNum (landOf (propsOf f)) = false →
      standaloneAcres (f :: fs) = standaloneAcres fs ∧
      groupedAcres (f :: fs) = groupedAcres fs) ∧
    (∀ area : String,
      sizeRowFor [] area = ⟨area, 0, none, 0⟩ ∧
      acresTotalFor [] area = 0 ∧
      countFor [] area = 0) := by
  refine ⟨fun own ptype areas long => ⟨rfl, rfl⟩, ?_, ?_, ?_,
    fun area => ⟨rfl, by show (0 : ℚ) + 0 = 0; norm_num, rfl⟩⟩
  · intro p own ptype areas long hp h2 h3
    rw [filterFeature_eq_conj]
    rw [show ownershipPass p own = false from by
      unfold ownershipPass
      rw [if_pos (by simp [h2, h3]), hp]
      rfl]
    rfl
  · intro f fs area hmatch hsf
    have haf : areaFeatures (f :: fs) area = f :: areaFeatures fs area := by
      unfold areaFeatures
      rw [List.filter_cons, if_pos (by simpa using hmatch)]
    have hnum : ((areaFeatures (f :: fs) area).map sfOf).filter isFiniteNum =
        ((areaFeatures fs area).map sfOf).filter isFiniteNum := by
      rw [haf, List.map_cons, List.filter_cons, if_neg (by simp [hsf])]
    refine ⟨?_, ?_, ?_, ?_⟩
    · show (((areaFeatures (f :: fs) area).map sfOf).filter isFiniteNum).foldl
        (fun sum v => sum + finVal v) 0 = (((areaFeatures fs area).map sfOf).filter
          isFiniteNum).foldl (fun sum v => sum + finVal v) 0
      rw [hnum]
    · show (((areaFeatures (f :: fs) area).map sfOf).filter isFiniteNum).length =
        (((areaFeatures fs area).map sfOf).filter isFiniteNum).length
      rw [hnum]
    · show (if (((areaFeatures (f :: fs) area).map sfOf).filter isFiniteNum).length > 0
        then some ((((areaFeatures (f :: fs) area).map sfOf).filter isFiniteNum).foldl
          (fun sum v => sum + finVal v) 0 /
          ((((areaFeatures (f :: fs) area).map sfOf).filter isFiniteNum).length : ℚ))
        else none) = _
      rw [hnum]
      rfl
    · rw [countFor_eq_length, countFor_eq_length, haf, List.length_cons]
  · intro f fs hl
    constructor
    · unfold standaloneAcres
      rw [List.foldl_cons]
      rw [show (if (isStandaloneG (propsOf f).grouping &&
          isFiniteNum (landOf (propsOf f))) = true
        then (0 : ℚ) + finVal (landOf (propsOf f)) else 0) = 0 from by
        rw [hl, Bool.and_false]
        rfl]
    · have he : groupedEntry (propsOf f) = none := by
        unfold groupedEntry
        cases hg : (propsOf f).grouping with
        | none => rfl
        | some g =>
          show (if (truthy g && !(jsStrictEq g (.str "None")) &&
              isFiniteNum (landOf (propsOf f))) = true
            then some (g, finVal (landOf (propsOf f))) else none) = none
          rw [hl, Bool.and_false]
          rfl
      unfold groupedAcres groupingToMaxAcres
      rw [List.foldl_cons, show groupStep [] f = [] from by rw [groupStep_eq_stepP, he]]

theorem malformed_inputs_graceful_witness :
    filterFeature (some emptyProps) "Owned" "All" ALL_SERVICE_AREAS true = false ∧
    countFor [some emptySaProps] "Habersham" = countFor [] "Habersham" + 1 :=
  ⟨malformed_inputs_graceful.2.1 emptyProps "Owned" "All" ALL_SERVICE_AREAS true rfl
    (by decide) (by decide),
   (malformed_inputs_graceful.2.2.1 (some emptySaProps) [] "Habersham" (by decide)
    (by decide)).2.2.2⟩

theorem sum_map_add (l : List String) (f g : String → ℚ) :
    (l.map (fun a => f a + g a)).sum = (l.map f).sum + (l.map g).sum := by
  induction l with
  | nil => simp
  | cons a l ih =>
    simp only [List.map_cons, List.sum_cons, ih]
    ring

/-- C9, counterexample: the claim that the headline acreage equals the
sum of the per-area totalAcres is false when a grouping key spans two
service areas.  With two "Land" parcels sharing group "G" across
Habersham (10 acres) and Lumpkin (15 acres), the headline dedup over the
whole filtered set yields 15, while the per-area rows sum to 25. -/
theorem headline_consistency_counterexample :
    headlineAcres (filteredFeatures [crossGroupHab, crossGroupLum] "all" "Land"
      ["Habersham", "Lumpkin"] true) = 15 ∧
    ((acresRows (filteredFeatures [crossGroupHab, crossGroupLum] "all" "Land"
      ["Habersham", "Lumpkin"] true) ["Habersham", "Lumpkin"]).map
        (fun r => r.totalAcres)).sum = 25 := by
  constructor
  · rw [show headlineAcres (filteredFeatures [crossGroupHab, crossGroupLum] "all" "Land"
      ["Habersham", "Lumpkin"] true) = (0 : ℚ) + (15 + 0) from rfl]
    norm_num
  · rw [show ((acresRows (filteredFeatures [crossGroupHab, crossGroupLum] "all" "Land"
      ["Habersham", "Lumpkin"] true) ["Habersham", "Lumpkin"]).map
        (fun r => r.totalAcres)).sum = ((0 : ℚ) + (10 + 0)) + ((0 + (15 + 0)) + 0)
      from rfl]
    norm_num

/-- C9, amended: over the filtered feature set and a non-empty
duplicate-free service-area selection, the headline total square footage
equals the sum of the per-area totalSquareFootage values; and the
headline total acreage equals the sum of the per-area totalAcres values
provided every grouping key occurs within a single service area (without
that proviso the two can differ, as the counterexample shows). -/
theorem headline_consistency_amended (portfolio : List Feature) (own ptype : String)
    (areas : List String) (long : Bool) (hnd : areas.Nodup) (hne : areas ≠ []) :
    headlineTotalSf (filteredFeatures portfolio own ptype areas long) =
      ((sizeRows (filteredFeatures portfolio own ptype areas long) areas).map
        (fun r => r.totalSf)).sum ∧
    ((∀ f ∈ filteredFeatures portfolio own ptype areas long,
        ∀ g ∈ filteredFeatures portfolio own ptype areas long,
        ∀ ef eg, groupedEntry (propsOf f) = some ef → groupedEntry (propsOf g) = some eg →
          ef.1 = eg.1 → getServiceArea f = getServiceArea g) →
      headlineAcres (filteredFeatures portfolio own ptype areas long) =
        ((acresRows (filteredFeatures portfolio own ptype areas long) areas).map
          (fun r => r.totalAcres)).sum) := by
  have hall := filtered_area_exists portfolio own ptype areas long hne
  constructor
  · rw [headlineTotalSf_eq_sum,
      sum_partition (filteredFeatures portfolio own ptype areas long) areas sfWeight hnd hall]
    unfold sizeRows
    rw [List.map_map]
    apply congrArg List.sum
    apply List.map_congr_left
    intro a _
    show ((areaFeatures (filteredFeatures portfolio own ptype areas long) a).map
      sfWeight).sum = (sizeRowFor (filteredFeatures portfolio own ptype areas long) a).totalSf
    exact (sizeRowFor_totalSf_eq (filteredFeatures portfolio own ptype areas long) a).symm
  · intro hloc
    unfold headlineAcres
    rw [standaloneAcres_eq_sum, groupedAcres_eq_spec,
      sum_partition (filteredFeatures portfolio own ptype areas long) areas
        standaloneWeight hnd hall,
      groupedAcresSpec_partition (filteredFeatures portfolio own ptype areas long) areas
        hnd hall hloc,
      ← sum_map_add]
    unfold acresRows
    rw [List.map_map]
    apply congrArg List.sum
    apply List.map_congr_left
    intro a _
    show ((areaFeatures (filteredFeatures portfolio own ptype areas long) a).map
        standaloneWeight).sum +
      groupedAcresSpec (areaFeatures (filteredFeatures portfolio own ptype areas long) a) =
      acresTotalFor (filteredFeatures portfolio own ptype areas long) a
    rw [← standaloneAcres_eq_sum, ← groupedAcres_eq_spec]
    rfl

theorem headline_consistency_amended_witness :
    headlineTotalSf (filteredFeatures [crossGroupHab] "all" "Land"
      ["Habersham", "Lumpkin"] true) =
      ((sizeRows (filteredFeatures [crossGroupHab] "all" "Land"
        ["Habersham", "Lumpkin"] true) ["Habersham", "Lumpkin"]).map
          (fun r => r.totalSf)).sum ∧
    headlineAcres (filteredFeatures [crossGroupHab] "all" "Land"
      ["Habersham", "Lumpkin"] true) =
      ((acresRows (filteredFeatures [crossGroupHab] "all" "Land"
        ["Habersham", "Lumpkin"] true) ["Habersham", "Lumpkin"]).map
          (fun r => r.totalAcres)).sum :=
  ⟨(headline_consistency_amended [crossGroupHab] "all" "Land" ["Habersham", "Lumpkin"] true
      (by decide) (by decide)).1,
   (headline_consistency_amended [crossGroupHab] "all" "Land" ["Habersham", "Lumpkin"] true
      (by decide) (by decide)).2 (by
    intro f hf g hg ef eg hef heg hk
    rw [show filteredFeatures [crossGroupHab] "all" "Land" ["Habersham", "Lumpkin"] true =
      [crossGroupHab] from rfl, List.mem_singleton] at hf hg
    rw [hf, hg])⟩

/-- C10, counterexample: the claim is false on two points.  First, the
stats path falls back to `label` whenever `service_area` is falsy, not
only when it is missing: with service_area = "" and label = "Habersham"
the derived area is "Habersham", while the claim's reading mandates "".
Second, with the full enumeration selected, a feature lacking
service_area but labelled with a selected area is NOT excluded by the
materialized-collection filter (the membership check is skipped), contrary
to the claim's "whereas" clause. -/
theorem service_area_fallback_counterexample :
    (getServiceArea (some emptySaProps) = .str "Habersham" ∧
     claimGetServiceArea (some emptySaProps) = .str "") ∧
    (filterFeature (some labelOnlyProps) "all" "All" ALL_SERVICE_AREAS true = true ∧
     collectionPred "all" "All" ALL_SERVICE_AREAS true (some labelOnlyProps) = true) := by
  decide

/-- C10, amended: the stats path reads the service area as
`properties.service_area`, falling back to `properties.label` whenever
`service_area` is falsy (missing, empty, zero), and to the empty string
when both are falsy.  For a feature lacking `service_area` but carrying a
truthy label equal to a selected area, the stats predicate includes the
feature and the aggregation files it under that area, whereas the
materialized-collection filter — which reads `service_area` only —
excludes it whenever the selection is not length-equal to the full
enumeration (with the full selection it skips the check and includes the
feature). -/
theorem service_area_fallback_amended (p : Properties) (a : String) (areas : List String)
    (hsa : p.service_area = none) (hlabel : p.label = some (.str a))
    (ha : a ∈ areas) :
    getServiceArea (some p) = .str a ∧
    filterFeature (some p) "all" "All" areas true = true ∧
    (areas.length ≠ ALL_SERVICE_AREAS.length →
      collectionPred "all" "All" areas true (some p) = false) := by
  have hgsa : getServiceArea (some p) = .str a := by
    show jsOr p.service_area (jsOr p.label (.str "")) = .str a
    rw [hsa, hlabel]
    show jsOr (some (.str a)) (.str "") = .str a
    exact jsOr_str_empty a
  have hne : areas ≠ [] := List.ne_nil_of_mem ha
  refine ⟨hgsa, ?_, ?_⟩
  · rw [filterFeature_eq_conj]
    rw [show ownershipPass p "all" = true from by
      unfold ownershipPass; rw [if_neg (by decide)]]
    rw [show ptypePassStats p "All" = true from by
      unfold ptypePassStats; rw [if_neg (by decide)]]
    rw [show longPass p true = true from by
      unfold longPass; rw [if_neg (by decide)]]
    rw [show areaPassStats p areas = true from by
      unfold areaPassStats
      rw [if_pos (by simp [hne]), hgsa]
      show jsIncludesStr areas (.str a) = true
      rw [jsIncludesStr_iff]
      exact ⟨a, rfl, ha⟩]
    rfl
  · intro h5
    rw [collectionPred_eq_conj]
    rw [show areaPassColl (propsOf (some p)) areas = false from by
      unfold areaPassColl
      rw [if_pos (by simp [h5])]
      show jsIncludesStrO areas p.service_area = false
      rw [hsa]
      rfl]
    simp

theorem service_area_fallback_amended_witness :
    getServiceArea (some labelOnlyProps) = .str "Habersham" ∧
    filterFeature (some labelOnlyProps) "all" "All" ["Habersham"] true = true ∧
    ((["Habersham"] : List String).length ≠ ALL_SERVICE_AREAS.length →
      collectionPred "all" "All" ["Habersham"] true (some labelOnlyProps) = false) :=
  service_area_fallback_amended labelOnlyProps "Habersham" ["Habersham"] rfl rfl
    (by decide)
